import Mathlib

/-!
# waf_monitor: adaptive rate limit and blocklist reconciliation

A shallow embedding of `src/lambda/waf_monitor/index.js`, and of the functions
of three neighbours that the claims name: `recordRetentionMetrics`,
`calculateRetentionRates` and `analyzeCohorts` of
`src/lambda/player_analytics/retention.ts`, `predictPeakHours` of
`src/lambda/activity_predictor/index.js`, and `getBedrockPlayerCount` of
`src/scripts/server_monitor.js`.

* JavaScript numbers are modelled as rationals (`ℚ`): the multipliers `1.5`
  and `0.8` are the exact rationals `3/2` and `4/5`, and the thresholds `0.8`
  and `0.2` are `4/5` and `1/5`. Rounding of doubles is not modelled.
* Objects are records with the members the code reads or writes; the members it
  only copies are kept in an uninterpreted `rest`.
* Every `await`ed service call is a transition of an explicit environment
  state that returns a value or an error; the calls a run issues are recorded,
  with their parameters and results, in a trace.
-/

namespace WafMonitor

/-! ## Constants (index.js, lines 5-12) -/

/-- The constant `RATE_INCREASE_THRESHOLD = 0.8` (80% of the current limit). -/
def RATE_INCREASE_THRESHOLD : ℚ := 4 / 5

/-- The constant `RATE_DECREASE_THRESHOLD = 0.2` (20% of the current limit). -/
def RATE_DECREASE_THRESHOLD : ℚ := 1 / 5

/-- The constant `MIN_RATE_LIMIT = 1000`. -/
def MIN_RATE_LIMIT : ℚ := 1000

/-- The constant `MAX_RATE_LIMIT = 10000`. -/
def MAX_RATE_LIMIT : ℚ := 10000

/-- The constant `RATE_LIMIT_RULE = 'RateBasedProtection'`. -/
def RATE_LIMIT_RULE : String := "RateBasedProtection"

/-! ## The rate-limit decision (handler, lines 199-207) -/

/-- The expression `metrics.MetricDataResults[0].Values[0] || 0`, given the
`Values` array: an absent first value (and a first value of `0`) gives `0`. -/
def blockedRequestsOf (values : List ℚ) : ℚ :=
  match values.head? with
  | some v => if v = 0 then 0 else v
  | none => 0

/-- The expression `blockedRequests / currentLimit` (line 200). For a limit of
`0` JavaScript gives `Infinity` or `NaN` where `ℚ` gives `0`; the decision below
is the same under both readings (the limit stays `0`). -/
def blockRateOf (blockedRequests currentLimit : ℚ) : ℚ :=
  blockedRequests / currentLimit

/-- Lines 202-207 of the handler: the value of `newLimit` after the
`if / else if`, as a function of `currentLimit` and `blockedRequests`. -/
def decideLimit (currentLimit blockedRequests : ℚ) : ℚ :=
  let blockRate := blockRateOf blockedRequests currentLimit
  if blockRate > RATE_INCREASE_THRESHOLD ∧ currentLimit < MAX_RATE_LIMIT then
    min (currentLimit * (3 / 2)) MAX_RATE_LIMIT
  else if blockRate < RATE_DECREASE_THRESHOLD ∧ currentLimit > MIN_RATE_LIMIT then
    max (currentLimit * (4 / 5)) MIN_RATE_LIMIT
  else
    currentLimit

/-! ## Data model: the shapes the handler reads and writes -/

/-- A thrown JavaScript error: its `message`, and the `code` by which an error
of the SDK names its kind (`WAFOptimisticLockException`, `ThrottlingException`,
...; a `TypeError` has none). The handler reads `message` only (line 269). -/
structure JsError where
  message : String
  code : Option String
deriving DecidableEq, Repr

/-- The `TypeError` raised by a property access on `undefined` (the text of its
message depends on the engine and is not modelled). -/
def typeError : JsError := ⟨"TypeError", none⟩

/-- Members of an object that the code copies but never inspects. -/
abbrev Fields := List (String × String)

/-- The object `rule.Statement.RateBasedStatement`. -/
structure RateBasedStatement where
  Limit : ℚ
  rest : Fields
deriving DecidableEq, Repr

/-- The object `rule.Statement`; a rule of another kind has no
`RateBasedStatement`. -/
structure Statement where
  RateBasedStatement : Option RateBasedStatement
  rest : Fields
deriving DecidableEq, Repr

/-- One element of `WebACL.Rules`. -/
structure Rule where
  Name : String
  Statement : Statement
  rest : Fields
deriving DecidableEq, Repr

/-- The object `response.WebACL`. -/
structure WebACL where
  Rules : List Rule
  DefaultAction : String
  Description : String
  VisibilityConfig : String
deriving DecidableEq, Repr

structure GetWebACLParams where
  Id : Option String
  Name : Option String
  Scope : String
deriving DecidableEq, Repr

structure GetWebACLResponse where
  WebACL : WebACL
  LockToken : String
deriving DecidableEq, Repr

structure UpdateWebACLParams where
  Id : Option String
  Name : Option String
  Scope : String
  Rules : List Rule
  LockToken : String
  DefaultAction : String
  Description : String
  VisibilityConfig : String
deriving DecidableEq, Repr

/-- One entry of `MetricDataQueries` (the time window is not modelled). -/
structure GetMetricDataParams where
  Id : String
  Namespace : String
  MetricName : String
  Dimensions : List (String × Option String)
  Period : Nat
  Stat : String
deriving DecidableEq, Repr

structure MetricDataResult where
  Values : List ℚ
deriving DecidableEq, Repr

structure GetMetricDataResponse where
  MetricDataResults : List MetricDataResult
deriving DecidableEq, Repr

/-- One entry of `MetricData` (the timestamp is not modelled). -/
structure MetricDatum where
  MetricName : String
  Value : ℚ
  Unit : String
  Dimensions : List (String × Option String)
deriving DecidableEq, Repr

structure PutMetricDataParams where
  Namespace : String
  MetricData : List MetricDatum
deriving DecidableEq, Repr

structure GetIPSetParams where
  Scope : String
  Id : Option String
  Name : Option String
deriving DecidableEq, Repr

structure IPSet where
  Addresses : List String
deriving DecidableEq, Repr

structure GetIPSetResponse where
  IPSet : IPSet
  LockToken : String
deriving DecidableEq, Repr

structure UpdateIPSetParams where
  Id : Option String
  Name : Option String
  Scope : String
  Addresses : List String
  LockToken : String
deriving DecidableEq, Repr

/-- Parameters of `getSampledRequests` (the time window is not modelled). -/
structure GetSampledRequestsParams where
  WebAclName : Option String
  RuleMetricName : String
  Scope : String
  MaxItems : Nat
deriving DecidableEq, Repr

/-- One element of `sampledRequests.SampledRequests`, as the handler reads it. -/
structure SampledRequest where
  Action : String
  ClientIP : String
deriving DecidableEq, Repr

structure GetSampledRequestsResponse where
  SampledRequests : List SampledRequest
deriving DecidableEq, Repr

/-- The value of `process.env.BLOCK_COUNT_THRESHOLD`: unset (or empty), a string
that denotes the number `q`, or a string that denotes no number. -/
inductive ThresholdSetting where
  | unset
  | number (q : ℚ)
  | notANumber
deriving DecidableEq, Repr

/-- The environment variables the module reads (`process.env`). -/
structure Config where
  WEB_ACL_ID : Option String
  WEB_ACL_NAME : Option String
  AWS_REGION : Option String
  IP_SET_ID : Option String
  IP_SET_NAME : Option String
  IP_SET_SCOPE : Option String
  BLOCK_COUNT_THRESHOLD : ThresholdSetting
deriving DecidableEq, Repr

/-- The argument of `publishMetrics`. -/
structure Metrics where
  blockedIPs : ℚ
  blockRate : ℚ
deriving DecidableEq, Repr

/-- The object passed to `JSON.stringify` for the handler's `body`. -/
inductive Body where
  | success (previousLimit newLimit blockRate : ℚ) (message : String)
      (blockCount : ℚ) (blockedIPs : Nat)
  | failure (message : String) (error : String)
deriving DecidableEq, Repr

/-- The handler's return value. -/
structure Response where
  statusCode : Nat
  body : Body
deriving DecidableEq, Repr

/-! ## Service calls, environment and trace -/

/-- The remote services (`wafv2`, `cloudwatch`): every call is a transition
of the environment's state `σ` that yields a value or an error. The state may
change arbitrarily at each call, so other actors are part of the environment. -/
structure Env (σ : Type) where
  getWebACL : GetWebACLParams → σ → Except JsError GetWebACLResponse × σ
  updateWebACL : UpdateWebACLParams → σ → Except JsError Unit × σ
  getMetricData : GetMetricDataParams → σ → Except JsError GetMetricDataResponse × σ
  putMetricData : PutMetricDataParams → σ → Except JsError Unit × σ
  getIPSet : GetIPSetParams → σ → Except JsError GetIPSetResponse × σ
  updateIPSet : UpdateIPSetParams → σ → Except JsError Unit × σ
  getSampledRequests :
    GetSampledRequestsParams → σ → Except JsError GetSampledRequestsResponse × σ

/-- One service call of a run: its parameters and its result. -/
inductive Event where
  | getWebACL (params : GetWebACLParams) (result : Except JsError GetWebACLResponse)
  | updateWebACL (params : UpdateWebACLParams) (result : Except JsError Unit)
  | getMetricData (params : GetMetricDataParams)
      (result : Except JsError GetMetricDataResponse)
  | putMetricData (params : PutMetricDataParams) (result : Except JsError Unit)
  | getIPSet (params : GetIPSetParams) (result : Except JsError GetIPSetResponse)
  | updateIPSet (params : UpdateIPSetParams) (result : Except JsError Unit)
  | getSampledRequests (params : GetSampledRequestsParams)
      (result : Except JsError GetSampledRequestsResponse)

deriving instance DecidableEq for Except

deriving instance DecidableEq for Event

/-- The environment's state and the calls issued so far, oldest first. -/
structure World (σ : Type) where
  state : σ
  trace : List Event

/-- An `async` computation: it returns a value or throws, and in both cases
leaves a world behind. -/
def M (σ : Type) (α : Type) : Type := World σ → Except JsError α × World σ

/-- A computation that returns `a` at once. -/
def M.pure {σ α : Type} (a : α) : M σ α := fun w => (.ok a, w)

/-- Sequencing (`await`): an error of the first part skips the second. -/
def M.bind {σ α β : Type} (m : M σ α) (f : α → M σ β) : M σ β := fun w =>
  match m w with
  | (.ok a, w1) => f a w1
  | (.error e, w1) => (.error e, w1)

/-- The statement `throw e`. -/
def M.throw {σ α : Type} (e : JsError) : M σ α := fun w => (.error e, w)

/-- The statement `try { m } catch (error) { h error }`. -/
def M.tryCatch {σ α : Type} (m : M σ α) (h : JsError → M σ α) : M σ α := fun w =>
  match m w with
  | (.ok a, w1) => (.ok a, w1)
  | (.error e, w1) => h e w1

instance {σ : Type} : Monad (M σ) where
  pure := M.pure
  bind := M.bind

instance {σ : Type} : MonadExcept JsError (M σ) where
  throw := M.throw
  tryCatch := M.tryCatch

/-- Issue one service call: step the environment and record the event. -/
def call {σ α : Type} (step : σ → Except JsError α × σ)
    (event : Except JsError α → Event) : M σ α := fun w =>
  let r := step w.state
  (r.1, { state := r.2, trace := w.trace ++ [event r.1] })

/-- The expression `process.env.X || fallback` for a string: unset and empty
both fall back. -/
def orDefault (x : Option String) (fallback : String) : String :=
  match x with
  | some s => if s = "" then fallback else s
  | none => fallback

/-! ## The functions of index.js -/

/-- The function `getCurrentRateLimit` (lines 14-23): `find` gives `undefined`
when no rule has the name, and reading through `undefined` throws. -/
def getCurrentRateLimit {σ : Type} (env : Env σ) (webAclId webAclName : Option String) :
    M σ ℚ := do
  let response ←
    call (env.getWebACL { Id := webAclId, Name := webAclName, Scope := "REGIONAL" })
      (Event.getWebACL { Id := webAclId, Name := webAclName, Scope := "REGIONAL" })
  match response.WebACL.Rules.find? (fun r => r.Name == "RateBasedProtection") with
  | none => throw typeError
  | some rateRule =>
    match rateRule.Statement.RateBasedStatement with
    | none => throw typeError
    | some rateBasedStatement => pure rateBasedStatement.Limit

/-- The callback of `response.WebACL.Rules.map` (lines 32-46): the spreads copy
every member, and `Limit` is set; spreading an absent `RateBasedStatement`
copies nothing. -/
def updateRule (newLimit : ℚ) (rule : Rule) : Rule :=
  if rule.Name = "RateBasedProtection" then
    { rule with
      Statement :=
        { rule.Statement with
          RateBasedStatement :=
            some (match rule.Statement.RateBasedStatement with
              | some rateBasedStatement => { rateBasedStatement with Limit := newLimit }
              | none => { Limit := newLimit, rest := [] }) } }
  else
    rule

/-- The function `updateRateLimit` (lines 25-72). -/
def updateRateLimit {σ : Type} (env : Env σ) (webAclId webAclName : Option String)
    (currentLimit newLimit : ℚ) : M σ Unit := do
  let response ←
    call (env.getWebACL { Id := webAclId, Name := webAclName, Scope := "REGIONAL" })
      (Event.getWebACL { Id := webAclId, Name := webAclName, Scope := "REGIONAL" })
  let updatedRules := response.WebACL.Rules.map (updateRule newLimit)
  let updateParams : UpdateWebACLParams :=
    { Id := webAclId
      Name := webAclName
      Scope := "REGIONAL"
      Rules := updatedRules
      LockToken := response.LockToken
      DefaultAction := response.WebACL.DefaultAction
      Description := response.WebACL.Description
      VisibilityConfig := response.WebACL.VisibilityConfig }
  call (env.updateWebACL updateParams) (Event.updateWebACL updateParams)
  let metricParams : PutMetricDataParams :=
    { Namespace := "MinecraftWAF"
      MetricData :=
        [{ MetricName := "RateLimitAdjustment"
           Value := newLimit - currentLimit
           Unit := "Count"
           Dimensions := [("WebACL", webAclName)] }] }
  call (env.putMetricData metricParams) (Event.putMetricData metricParams)

/-- The function `getBlockedIPs` (lines 74-88); the `catch` logs and rethrows. -/
def getBlockedIPs {σ : Type} (env : Env σ) (cfg : Config) : M σ (List String) :=
  let params : GetIPSetParams :=
    { Scope := orDefault cfg.IP_SET_SCOPE "REGIONAL"
      Id := cfg.IP_SET_ID
      Name := cfg.IP_SET_NAME }
  tryCatch
    (do
      let response ← call (env.getIPSet params) (Event.getIPSet params)
      pure response.IPSet.Addresses)
    (fun error => throw error)

/-- The function `updateBlockedIPs` (lines 90-110): the `LockToken` member of
`params` is read by a `getIPSet` call of its own; the `catch` logs and
rethrows. -/
def updateBlockedIPs {σ : Type} (env : Env σ) (cfg : Config) (newIPs : List String) :
    M σ Unit := do
  let tokenParams : GetIPSetParams :=
    { Id := cfg.IP_SET_ID
      Name := cfg.IP_SET_NAME
      Scope := orDefault cfg.IP_SET_SCOPE "REGIONAL" }
  let tokenResponse ← call (env.getIPSet tokenParams) (Event.getIPSet tokenParams)
  let params : UpdateIPSetParams :=
    { Id := cfg.IP_SET_ID
      Name := cfg.IP_SET_NAME
      Scope := orDefault cfg.IP_SET_SCOPE "REGIONAL"
      Addresses := newIPs
      LockToken := tokenResponse.LockToken }
  tryCatch
    (call (env.updateIPSet params) (Event.updateIPSet params))
    (fun error => throw error)

/-- The query built by `getBlockCounts` (lines 116-134). -/
def blockCountQuery (webAclId : Option String) : GetMetricDataParams :=
  { Id := "blocks"
    Namespace := "AWS/WAFV2"
    MetricName := "BlockedRequests"
    Dimensions := [("WebACL", webAclId), ("Rule", some RATE_LIMIT_RULE)]
    Period := 300
    Stat := "Sum" }

/-- The function `getBlockCounts` (lines 112-143): the sum of the first
result's values; an absent first result throws inside the `try`, the `catch`
logs and rethrows. -/
def getBlockCounts {σ : Type} (env : Env σ) (webAclId : Option String) : M σ ℚ :=
  let params := blockCountQuery webAclId
  tryCatch
    (do
      let data ← call (env.getMetricData params) (Event.getMetricData params)
      match data.MetricDataResults.head? with
      | none => throw typeError
      | some result => pure (result.Values.foldl (fun a b => a + b) 0))
    (fun error => throw error)

/-- The function `publishMetrics` (lines 145-169): the `catch` logs and does
not rethrow. -/
def publishMetrics {σ : Type} (env : Env σ) (metrics : Metrics) : M σ Unit :=
  let params : PutMetricDataParams :=
    { MetricData :=
        [{ MetricName := "BlockedIPCount"
           Value := metrics.blockedIPs
           Unit := "Count"
           Dimensions := [] },
         { MetricName := "BlockedRequestsRate"
           Value := metrics.blockRate
           Unit := "Count/Second"
           Dimensions := [] }]
      Namespace := "MinecraftServer/WAF" }
  tryCatch
    (call (env.putMetricData params) (Event.putMetricData params))
    (fun _ => pure ())

/-- The query the handler issues for the last hour (lines 179-197). -/
def windowQuery (webAclName : Option String) : GetMetricDataParams :=
  { Id := "m1"
    Namespace := "AWS/WAFV2"
    MetricName := "BlockedRequests"
    Dimensions := [("WebACL", webAclName)]
    Period := 3600
    Stat := "Sum" }

/-- The method `Set.prototype.add`: a value already present is not added
again, a new value goes last. -/
def setAdd (s : List String) (x : String) : List String :=
  if x ∈ s then s else s ++ [x]

/-- The expression `[...new Set(xs)]`: the distinct values of `xs`, in the
order of their first occurrences. -/
def newSet (xs : List String) : List String :=
  xs.foldl setAdd []

/-- Lines 235-237: `.filter(req => req.Action === 'BLOCK').map(req => req.ClientIP + '/32')`. -/
def ipsToBlockOf (sampledRequests : List SampledRequest) : List String :=
  (sampledRequests.filter (fun req => req.Action == "BLOCK")).map
    (fun req => req.ClientIP ++ "/32")

/-- The test `blockCount > BLOCK_THRESHOLD` with
`BLOCK_THRESHOLD = process.env.BLOCK_COUNT_THRESHOLD || 100`: a string is
converted to a number for the comparison, and no number compares as false. -/
def exceedsThreshold (blockCount : ℚ) (setting : ThresholdSetting) : Bool :=
  match setting with
  | .unset => decide (blockCount > 100)
  | .number q => decide (blockCount > q)
  | .notANumber => false

/-- The body of the handler's `try` block (lines 176-262). -/
def handlerBody {σ : Type} (env : Env σ) (cfg : Config) : M σ Response := do
  let currentLimit ← getCurrentRateLimit env cfg.WEB_ACL_ID cfg.WEB_ACL_NAME
  let metrics ← call (env.getMetricData (windowQuery cfg.WEB_ACL_NAME))
    (Event.getMetricData (windowQuery cfg.WEB_ACL_NAME))
  let values ← match metrics.MetricDataResults.head? with
    | none => (throw typeError : M σ (List ℚ))
    | some result => pure result.Values
  let blockedRequests := blockedRequestsOf values
  let blockRate := blockRateOf blockedRequests currentLimit
  let newLimit := decideLimit currentLimit blockedRequests
  if newLimit ≠ currentLimit then
    updateRateLimit env cfg.WEB_ACL_ID cfg.WEB_ACL_NAME currentLimit newLimit
  let currentBlockedIPs ← getBlockedIPs env cfg
  let blockCount ← getBlockCounts env cfg.WEB_ACL_ID
  if exceedsThreshold blockCount cfg.BLOCK_COUNT_THRESHOLD then
    let sampleParams : GetSampledRequestsParams :=
      { WebAclName := cfg.WEB_ACL_NAME
        RuleMetricName := RATE_LIMIT_RULE
        Scope := "REGIONAL"
        MaxItems := 500 }
    let sampledRequests ← call (env.getSampledRequests sampleParams)
      (Event.getSampledRequests sampleParams)
    let ipsToBlock := ipsToBlockOf sampledRequests.SampledRequests
    let newBlockedIPs := newSet (currentBlockedIPs ++ ipsToBlock)
    updateBlockedIPs env cfg newBlockedIPs
    publishMetrics env
      { blockedIPs := newBlockedIPs.length
        blockRate := blockCount / 3600 }
  pure
    { statusCode := 200
      body := Body.success currentLimit newLimit blockRate
        "WAF monitoring completed successfully" blockCount currentBlockedIPs.length }

/-- The function `exports.handler` (lines 171-273): whatever the `try` block
throws becomes a response with status 500. -/
def handler {σ : Type} (env : Env σ) (cfg : Config) : M σ Response :=
  tryCatch (handlerBody env cfg)
    (fun error =>
      pure
        { statusCode := 500
          body := Body.failure "Error in WAF monitoring" error.message })

/-- One invocation of the handler from environment state `s`: the response, the
environment's final state and the calls issued, in order. -/
def runHandler {σ : Type} (env : Env σ) (cfg : Config) (s : σ) :
    Except JsError Response × World σ :=
  handler env cfg { state := s, trace := [] }

/-! ## Properties of traces -/

/-- The event is a policy write (`updateWebACL`). -/
def Event.isUpdateWebACL : Event → Bool
  | .updateWebACL _ _ => true
  | _ => false

/-- The event is a read of the address set (`getIPSet`). -/
def Event.isGetIPSet : Event → Bool
  | .getIPSet _ _ => true
  | _ => false

/-- The event is a sampling request (`getSampledRequests`). -/
def Event.isGetSampledRequests : Event → Bool
  | .getSampledRequests _ _ => true
  | _ => false

/-- The event is an address-set write (`updateIPSet`). -/
def Event.isUpdateIPSet : Event → Bool
  | .updateIPSet _ _ => true
  | _ => false

/-- The event is a metrics publish (`putMetricData`). -/
def Event.isPutMetricData : Event → Bool
  | .putMetricData _ _ => true
  | _ => false

/-- The event is the publish of the blocklist metrics by `publishMetrics`
(namespace `MinecraftServer/WAF`). -/
def Event.isBlocklistMetrics : Event → Bool
  | .putMetricData p _ => p.Namespace == "MinecraftServer/WAF"
  | _ => false

/-- The error of a call's result, if it is one. -/
def errorOf {α : Type} : Except JsError α → Option JsError
  | .error e => some e
  | .ok _ => none

/-- The error a call ended with, if it failed. -/
def Event.error? : Event → Option JsError
  | .getWebACL _ r => errorOf r
  | .updateWebACL _ r => errorOf r
  | .getMetricData _ r => errorOf r
  | .putMetricData _ r => errorOf r
  | .getIPSet _ r => errorOf r
  | .updateIPSet _ r => errorOf r
  | .getSampledRequests _ r => errorOf r

/-- A write `ev` that comes right after `prev` carries a fresh token: `prev` is
a successful read of the same resource and `ev` presents the token that read
returned. Events other than writes satisfy it. -/
def writeFollowsRead (prev : Option Event) (ev : Event) : Bool :=
  match ev, prev with
  | .updateWebACL p _, some (.getWebACL _ (.ok resp)) => p.LockToken == resp.LockToken
  | .updateWebACL _ _, _ => false
  | .updateIPSet p _, some (.getIPSet _ (.ok resp)) => p.LockToken == resp.LockToken
  | .updateIPSet _ _, _ => false
  | _, _ => true

/-- Every write of the trace carries a fresh token, `prev` being the event
before the trace. -/
def tokensFresh (prev : Option Event) : List Event → Bool
  | [] => true
  | ev :: rest => writeFollowsRead prev ev && tokensFresh (some ev) rest

/-- The policy `sent` to the store is the `fetched` one with only the limit of
the rate rule replaced: same rules in the same order, a rule of another name
unchanged, a rule named `RateBasedProtection` unchanged but for
`Statement.RateBasedStatement.Limit`, and the policy's other members as fetched. -/
def onlyLimitReplaced (newLimit : ℚ) (fetched : WebACL) (sent : UpdateWebACLParams) : Prop :=
  sent.Rules.length = fetched.Rules.length ∧
  (∀ (i : Nat) (old : Rule), fetched.Rules[i]? = some old →
    ∃ new : Rule, sent.Rules[i]? = some new ∧
      new.Name = old.Name ∧ new.rest = old.rest ∧
      new.Statement.rest = old.Statement.rest ∧
      (old.Name ≠ "RateBasedProtection" → new = old) ∧
      (old.Name = "RateBasedProtection" →
        ∃ rbs : RateBasedStatement,
          new.Statement.RateBasedStatement = some rbs ∧ rbs.Limit = newLimit ∧
          rbs.rest =
            match old.Statement.RateBasedStatement with
            | some o => o.rest
            | none => [])) ∧
  sent.DefaultAction = fetched.DefaultAction ∧
  sent.Description = fetched.Description ∧
  sent.VisibilityConfig = fetched.VisibilityConfig

/-- The event is a store write (`updateWebACL` or `updateIPSet`) that was
rejected or failed. -/
def Event.isFailedWrite : Event → Bool
  | .updateWebACL _ r => (errorOf r).isSome
  | .updateIPSet _ r => (errorOf r).isSome
  | .getWebACL _ _ => false
  | .getMetricData _ _ => false
  | .putMetricData _ _ => false
  | .getIPSet _ _ => false
  | .getSampledRequests _ _ => false

/-- No call at all follows a store write that was rejected or failed: such a
write is the last event of the trace. -/
def failedWriteIsLast : List Event → Bool
  | [] => true
  | ev :: rest => (!ev.isFailedWrite || rest.isEmpty) && failedWriteIsLast rest

/-! ## An in-memory service with versioned resources -/

/-- The state of an in-memory stand-in for the remote services, after the
contract of the stores (`get` returns the content with its lock token, `update`
is accepted only if the token presented is the resource's current one): the policy
and the address set each carry a lock token, which every accepted write replaces.
`faults` lists the calls (numbered from 0 in arrival order) that fail, with the
error's code, which also serves as its message; `operators` lists the additions
other actors make to the address set, each just before the call of the given
number is served. -/
structure Cloud where
  webACL : WebACL
  aclToken : String
  addresses : List String
  ipToken : String
  windowValues : List ℚ
  hourValues : List ℚ
  sampled : List SampledRequest
  served : Nat
  faults : List (Nat × String)
  operators : List (Nat × String)
deriving DecidableEq, Repr

/-- Another actor adds `x` to the address set, with a correct write of its own:
the set keeps its addresses and its lock token changes. -/
def Cloud.operatorAdds (c : Cloud) (x : String) : Cloud :=
  { c with addresses := setAdd c.addresses x, ipToken := c.ipToken ++ "*" }

/-- A call arrives: the other actors' additions due now are applied, and the
call is counted. -/
def Cloud.arrive (c : Cloud) : Cloud :=
  let due := (c.operators.filter (fun o => o.1 == c.served)).map (fun o => o.2)
  { due.foldl Cloud.operatorAdds c with served := c.served + 1 }

/-- Serve one call: it fails when `faults` says so, and otherwise runs `k`. -/
def Cloud.serve {α : Type} (c : Cloud) (k : Cloud → Except JsError α × Cloud) :
    Except JsError α × Cloud :=
  match c.faults.find? (fun f => f.1 == c.served) with
  | some f => (.error ⟨f.2, some f.2⟩, c.arrive)
  | none => k c.arrive

/-- The services over `Cloud`. A write is accepted only when it carries the
resource's current lock token; a stale token is rejected and changes nothing. -/
def cloudEnv : Env Cloud where
  getWebACL := fun _ c =>
    c.serve (fun c => (.ok { WebACL := c.webACL, LockToken := c.aclToken }, c))
  updateWebACL := fun p c =>
    c.serve (fun c =>
      if p.LockToken = c.aclToken then
        (.ok (),
          { c with
            webACL :=
              { Rules := p.Rules
                DefaultAction := p.DefaultAction
                Description := p.Description
                VisibilityConfig := p.VisibilityConfig }
            aclToken := c.aclToken ++ "*" })
      else
        (.error ⟨"WAFOptimisticLockException", some "WAFOptimisticLockException"⟩,
          c))
  getMetricData := fun p c =>
    c.serve (fun c =>
      (.ok { MetricDataResults :=
        [{ Values := if p.Period = 3600 then c.windowValues else c.hourValues }] }, c))
  putMetricData := fun _ c => c.serve (fun c => (.ok (), c))
  getIPSet := fun _ c =>
    c.serve (fun c => (.ok { IPSet := { Addresses := c.addresses }, LockToken := c.ipToken }, c))
  updateIPSet := fun p c =>
    c.serve (fun c =>
      if p.LockToken = c.ipToken then
        (.ok (), { c with addresses := p.Addresses, ipToken := c.ipToken ++ "*" })
      else
        (.error ⟨"WAFOptimisticLockException", some "WAFOptimisticLockException"⟩,
          c))
  getSampledRequests := fun _ c => c.serve (fun c => (.ok { SampledRequests := c.sampled }, c))

/-- A rate-based rule named `RateBasedProtection` with the given limit. -/
def rateRule (limit : ℚ) : Rule :=
  { Name := "RateBasedProtection"
    Statement :=
      { RateBasedStatement := some { Limit := limit, rest := [("AggregateKeyType", "IP")] }
        rest := [] }
    rest := [("Priority", "1")] }

/-- A rule of another kind. -/
def geoRule : Rule :=
  { Name := "GeoBlock"
    Statement := { RateBasedStatement := none, rest := [("GeoMatchStatement", "XX")] }
    rest := [("Priority", "0")] }

/-- A configuration with every identifier set and the default threshold. -/
def sampleConfig : Config :=
  { WEB_ACL_ID := some "acl-id"
    WEB_ACL_NAME := some "acl"
    AWS_REGION := some "us-east-1"
    IP_SET_ID := some "set-id"
    IP_SET_NAME := some "set"
    IP_SET_SCOPE := none
    BLOCK_COUNT_THRESHOLD := .unset }

/-- A service state: limit 5000, a quiet window inside the hysteresis band, one
blocked address, 150 blocks in the last hour, two sampled blocked requests. -/
def sampleCloud : Cloud :=
  { webACL :=
      { Rules := [geoRule, rateRule 5000]
        DefaultAction := "Allow"
        Description := "edge policy"
        VisibilityConfig := "on" }
    aclToken := "a"
    addresses := ["1.2.3.4/32"]
    ipToken := "t"
    windowValues := [2500]
    hourValues := [100, 50]
    sampled := [⟨"BLOCK", "1.2.3.4"⟩, ⟨"ALLOW", "7.7.7.7"⟩, ⟨"BLOCK", "5.6.7.8"⟩]
    served := 0
    faults := []
    operators := [] }

/-- The same service state as `sampleCloud`, where another actor adds
`9.9.9.9/32` to the address set while the handler requests its sample (call
number 4): after the handler has read the set, before it commits. -/
def racingCloud : Cloud :=
  { sampleCloud with operators := [(4, "9.9.9.9/32")] }

/-- The same service state as `sampleCloud` with limit 1001 and 1000 blocked
requests in the window. -/
def oddLimitCloud : Cloud :=
  { sampleCloud with
    webACL := { sampleCloud.webACL with Rules := [geoRule, rateRule 1001] }
    windowValues := [1000] }

/-- The same service state as `sampleCloud` with exactly 100 blocks in the last
hour, the default threshold. -/
def quietCloud : Cloud :=
  { sampleCloud with hourValues := [100] }

/-- The same service state as `sampleCloud` where both metric queries return a
result without data points. -/
def silentCloud : Cloud :=
  { sampleCloud with windowValues := [], hourValues := [] }

/-- The same service state as `sampleCloud` with 4500 blocked requests in the
window, so that the limit is raised to 7500. -/
def busyCloud : Cloud :=
  { sampleCloud with windowValues := [4500] }

/-- The service state `busyCloud` where call number 4, the publish of the
`RateLimitAdjustment` metric, fails. -/
def telemetryFaultCloud : Cloud :=
  { busyCloud with faults := [(4, "ThrottlingException")] }

/-- A configuration in which the address set's id is missing. -/
def noSetIdConfig : Config :=
  { sampleConfig with IP_SET_ID := none }

/-- A configuration in which every identifier is missing. -/
def emptyConfig : Config :=
  { WEB_ACL_ID := none
    WEB_ACL_NAME := none
    AWS_REGION := none
    IP_SET_ID := none
    IP_SET_NAME := none
    IP_SET_SCOPE := none
    BLOCK_COUNT_THRESHOLD := .unset }

/-- The service state `busyCloud` where call number 5, the first read of the
address set, is refused (as a client library does with a request that lacks a
required parameter). -/
def strictCloud : Cloud :=
  { busyCloud with faults := [(5, "MissingRequiredParameter")] }

/-- The same service state as `sampleCloud`, where another actor adds
`9.9.9.9/32` to the address set just before the handler's write (call number
6), after the handler has fetched its lock token (call number 5): the token the
handler presents is stale. -/
def lateRaceCloud : Cloud :=
  { sampleCloud with operators := [(6, "9.9.9.9/32")] }

/-- The services over `Cloud` in which every write of the address set fails
with the error `e`. -/
def rejectingEnv (e : JsError) : Env Cloud :=
  { cloudEnv with updateIPSet := fun _ c => c.serve (fun c => (.error e, c)) }

/-- The response to a run on `sampleCloud`: limit 5000 kept, block rate 1/2,
150 blocks in the last hour, one address read from the set. -/
def sampleSummary : Response :=
  { statusCode := 200
    body := Body.success 5000 5000 (1 / 2) "WAF monitoring completed successfully" 150 1 }

/-! ## Retention (lambda/player_analytics/retention.ts) -/

/-- An item of the sessions table, as far as `retention.ts` reads it;
`timestamp` is in milliseconds. -/
structure Session where
  playerId : String
  timestamp : Int
deriving DecidableEq, Repr

/-- The type `PlayerCohort` (retention.types.ts); `retention` lists the keys of
the object in insertion order. -/
structure PlayerCohort where
  week : Int
  players : List String
  retention : List (String × ℚ)
deriving DecidableEq, Repr

/-- The number `7 * 24 * 60 * 60 * 1000` of milliseconds in a week. -/
def WEEK_MS : Int := 7 * 24 * 60 * 60 * 1000

/-- The assignment `o[key] = value` on an object: a present key keeps its
place, a new key goes last. -/
def objSet {α : Type} (o : List (String × α)) (key : String) (value : α) : List (String × α) :=
  match o with
  | [] => [(key, value)]
  | (k, v) :: rest => if k = key then (k, value) :: rest else (k, v) :: objSet rest key value

/-- The callback of lines 22-27 on the object `playerFirstSeen`, kept as the
list of its entries in the order of `Object.entries` (insertion order; player
ids are taken not to be array indices): the test `!playerFirstSeen[playerId]`
holds for an absent key and for the value 0. -/
def noteFirstSeen (playerFirstSeen : List (String × Int)) (session : Session) :
    List (String × Int) :=
  match playerFirstSeen.lookup session.playerId with
  | none => objSet playerFirstSeen session.playerId session.timestamp
  | some seen =>
    if seen = 0 ∨ session.timestamp < seen then
      objSet playerFirstSeen session.playerId session.timestamp
    else
      playerFirstSeen

/-- Lines 35-37 on the array `cohorts`, kept as the list of its elements in
index order: the cohort at index `weekNumber` gets the player, a new cohort is
put at its index. -/
def addToCohort (cohorts : List PlayerCohort) (weekNumber : Int) (playerId : String) :
    List PlayerCohort :=
  match cohorts with
  | [] => [{ week := weekNumber, players := [playerId], retention := [] }]
  | cohort :: rest =>
    if cohort.week = weekNumber then
      { cohort with players := cohort.players ++ [playerId] } :: rest
    else if weekNumber < cohort.week then
      { week := weekNumber, players := [playerId], retention := [] } :: cohort :: rest
    else
      cohort :: addToCohort rest weekNumber playerId

/-- Lines 19-38 of `analyzeCohorts`: the cohorts built from the scanned
`sessions` at time `now`. A negative `weekNumber` names a property of the array
and no element; `forEach`, `flatMap` and the JSON text leave it out, and so
does this list. -/
def cohortsOf (now : Int) (sessions : List Session) : List PlayerCohort :=
  let playerFirstSeen := sessions.foldl noteFirstSeen []
  playerFirstSeen.foldl
    (fun cohorts entry =>
      let weekNumber := (now - entry.2).fdiv WEEK_MS
      if weekNumber < 0 then cohorts else addToCohort cohorts weekNumber entry.1)
    []

/-- Lines 50-59: the value stored under the key of `week` for `cohort`. -/
def retentionRate (cohort : PlayerCohort) (sessions : List Session) (week : Int) : ℚ :=
  let cohortPlayers := newSet cohort.players
  let activeInWeek := newSet
    ((sessions.filter (fun s =>
        let sessionWeek := (s.timestamp - cohort.week * 7 * 24 * 60 * 60 * 1000).fdiv
          (7 * 24 * 60 * 60 * 1000)
        decide (sessionWeek = week) && cohortPlayers.contains s.playerId)).map
      (fun s => s.playerId))
  (activeInWeek.length : ℚ) / (cohortPlayers.length : ℚ) * 100

/-- The body of `cohorts.forEach` in `calculateRetentionRates` (lines 46-60):
the keys `week1`, ..., `week4` are set in this order. -/
def withRetention (sessions : List Session) (cohort : PlayerCohort) : PlayerCohort :=
  { cohort with
    retention :=
      [1, 2, 3, 4].foldl
        (fun retention (week : Nat) =>
          objSet retention ("week" ++ toString week) (retentionRate cohort sessions week))
        cohort.retention }

/-- Lines 70-80: one metric for every entry of every cohort's `retention`. -/
def retentionMetricsOf (cohorts : List PlayerCohort) : List MetricDatum :=
  cohorts.flatMap (fun cohort =>
    cohort.retention.map (fun entry =>
      { MetricName := "PlayerRetention"
        Value := entry.2
        Unit := "Percent"
        Dimensions :=
          [("CohortWeek", some (toString cohort.week)), ("RetentionWeek", some entry.1)] }))

/-- The loop of lines 83-88 from index `i` on: a failing call ends the loop,
its error is thrown. -/
def publishFrom {σ : Type} (env : Env σ) (metrics : List MetricDatum) (i : Nat) : M σ Unit :=
  if i < metrics.length then do
    call
      (env.putMetricData
        { Namespace := "MinecraftServer/Retention", MetricData := (metrics.drop i).take 20 })
      (Event.putMetricData
        { Namespace := "MinecraftServer/Retention", MetricData := (metrics.drop i).take 20 })
    publishFrom env metrics (i + 20)
  else
    pure ()
termination_by metrics.length - i

/-- The function `recordRetentionMetrics` (lines 69-89). -/
def recordRetentionMetrics {σ : Type} (env : Env σ) (cohorts : List PlayerCohort) :
    M σ Unit :=
  publishFrom env (retentionMetricsOf cohorts) 0

/-- The function `calculateRetentionRates` (lines 44-67). -/
def calculateRetentionRates {σ : Type} (env : Env σ) (cohorts : List PlayerCohort)
    (sessions : List Session) : M σ (List PlayerCohort) := do
  let cohorts := cohorts.map (withRetention sessions)
  recordRetentionMetrics env cohorts
  pure cohorts

/-- The function `analyzeCohorts` (lines 8-42) after its scan: `sessions` are
the items the scan returned and `now` is the value of `Date.now()` in line 31. -/
def analyzeCohorts {σ : Type} (env : Env σ) (now : Int) (sessions : List Session) :
    M σ (List PlayerCohort) :=
  calculateRetentionRates env (cohortsOf now sessions) sessions

/-- The items in a publish call. -/
def Event.metricData : Event → List MetricDatum
  | .putMetricData p _ => p.MetricData
  | .getWebACL _ _ => []
  | .updateWebACL _ _ => []
  | .getMetricData _ _ => []
  | .getIPSet _ _ => []
  | .updateIPSet _ _ => []
  | .getSampledRequests _ _ => []

/-- The sessions of the test `calculates retention rates accurately`, at time
`now`. -/
def testSessions (now : Int) : List Session :=
  [⟨"player1", now - 3 * WEEK_MS⟩, ⟨"player2", now - 3 * WEEK_MS⟩,
   ⟨"player1", now - 2 * WEEK_MS⟩, ⟨"player1", now - WEEK_MS⟩]

/-- Six cohorts with four retention values each: 24 metrics. -/
def sixCohorts : List PlayerCohort :=
  (List.range 6).map (fun week =>
    { week := week
      players := ["player1", "player2"]
      retention := [("week1", 50), ("week2", 50), ("week3", 0), ("week4", 0)] })

/-- The retention the claim defines for week `k` of a cohort, at time `now`:
100 times the share of the cohort's players that have a session in the `k`-th
week after the cohort's first-seen week (the week that lies `cohort.week - k`
weeks before `now`). -/
def claimedRetention (now : Int) (cohort : PlayerCohort) (sessions : List Session)
    (k : Int) : ℚ :=
  let active := newSet
    ((sessions.filter (fun s =>
        decide ((now - s.timestamp).fdiv WEEK_MS = cohort.week - k) &&
          cohort.players.contains s.playerId)).map
      (fun s => s.playerId))
  100 * (active.length : ℚ) / ((newSet cohort.players).length : ℚ)

/-! ## Peak hours (lambda/activity_predictor/index.js, lines 6-30) -/

/-- The assignment `xs[i] = v` on an array: an index within the array replaces
the element, the index `xs.length` appends (no other index arises below). -/
def assign (xs : List ℚ) (i : Nat) (v : ℚ) : List ℚ :=
  if i < xs.length then xs.set i v else xs ++ [v]

/-- One round of the smoothing loop (line 18), with `alpha = 0.3`. -/
def smoothStep (playerData smoothedData : List ℚ) (i : Nat) : List ℚ :=
  assign smoothedData i
    (3 / 10 * playerData.getD i 0 + (1 - 3 / 10) * smoothedData.getD (i - 1) 0)

/-- The array `smoothedData` after both loops (lines 8-19): 24 entries
`playerData[hour] || 0`, then the rounds `i = 1, ..., playerData.length - 1`. -/
def smoothedDataOf (playerData : List ℚ) : List ℚ :=
  (List.range' 1 (playerData.length - 1)).foldl (smoothStep playerData)
    ((List.range 24).map (fun hour => playerData.getD hour 0))

/-- The call `Math.max(...xs)` on an array that is not empty. -/
def maxOf : List ℚ → ℚ
  | [] => 0
  | x :: xs => xs.foldl max x

/-- The function `predictPeakHours` (lines 6-30): the hours whose smoothed
value is above half of the largest smoothed value, in the order of the hours. -/
def predictPeakHours (playerData : List ℚ) : List Nat :=
  let smoothedData := smoothedDataOf playerData
  let maxActivity := maxOf smoothedData
  (smoothedData.enum.filter (fun p => decide (p.2 > 1 / 2 * maxActivity))).map (fun p => p.1)

/-- The smoothed series as the claim defines it: `s 0 = x[0]` and
`s i = 0.3 * x[i] + 0.7 * s (i - 1)`. -/
def claimedSeries (x : List ℚ) : Nat → ℚ
  | 0 => x.getD 0 0
  | i + 1 => 3 / 10 * x.getD (i + 1) 0 + 7 / 10 * claimedSeries x i

/-- The 24-hour series of the test `identifies correct peak hours`. -/
def mockPlayerData : List ℚ :=
  [5, 2, 1, 0, 0, 0, 1, 2, 4, 6, 8, 10, 12, 15, 18, 20, 15, 12, 10, 8, 6, 4, 3, 2]

/-! ## The player count of the Bedrock server (scripts/server_monitor.js, lines 13-29) -/

/-- The method `String.prototype.includes`, on the characters of the strings:
`t` occurs in `s` as a substring. -/
def includes (s t : List Char) : Bool :=
  s.tails.any (fun u => t.isPrefixOf u)

/-- The matches of `/Player connected|Player disconnected/g` in a text, from
left to right; `skip` is the number of characters still covered by the match
before. At a position the alternatives are tried in order. -/
def playerEvents : List Char → Nat → List String
  | [], _ => []
  | _ :: cs, skip + 1 => playerEvents cs skip
  | c :: cs, 0 =>
    if "Player connected".toList.isPrefixOf (c :: cs) then
      "Player connected" :: playerEvents cs 15
    else if "Player disconnected".toList.isPrefixOf (c :: cs) then
      "Player disconnected" :: playerEvents cs 18
    else
      playerEvents cs 0

/-- The expression `log.split('\n').slice(-100).join('\n')`: the last 100 lines
of the text. -/
def lastLogsOf (log : String) : List Char :=
  let lines := log.toList.splitOn '\n'
  List.intercalate ['\n'] (lines.drop (lines.length - 100))

/-- The function `getBedrockPlayerCount` (lines 13-29), from the outcome of
`fs.readFile`: a failed read is caught and gives 0. -/
def getBedrockPlayerCount (read : Except JsError String) : Int :=
  match read with
  | .error _ => 0
  | .ok log =>
    let found := playerEvents (lastLogsOf log) 0
    let count := found.foldl
      (fun count m => count + (if includes m.toList "connected".toList then 1 else -1)) 0
    max 0 count

/-- The count as the claim defines it: connections minus disconnections among
the events of the last 100 lines, not below 0. -/
def claimedPlayerCount (log : String) : Int :=
  let events := playerEvents (lastLogsOf log) 0
  max 0 ((events.count "Player connected" : Int) - events.count "Player disconnected")

/-! ## Unfolding lemmas for computations -/

theorem run_pure {σ α : Type} (a : α) (w : World σ) :
    (pure a : M σ α) w = (.ok a, w) := rfl

theorem run_throw {σ α : Type} (e : JsError) (w : World σ) :
    (throw e : M σ α) w = (.error e, w) := rfl

theorem run_bind {σ α β : Type} (m : M σ α) (f : α → M σ β) (w : World σ) :
    (m >>= f) w =
      match m w with
      | (.ok a, w1) => f a w1
      | (.error e, w1) => (.error e, w1) := rfl

theorem run_tryCatch {σ α : Type} (m : M σ α) (h : JsError → M σ α) (w : World σ) :
    (tryCatch m h) w =
      match m w with
      | (.ok a, w1) => (.ok a, w1)
      | (.error e, w1) => h e w1 := rfl

theorem run_call {σ α : Type} (step : σ → Except JsError α × σ)
    (event : Except JsError α → Event) (w : World σ) :
    call step event w =
      ((step w.state).1,
        { state := (step w.state).2, trace := w.trace ++ [event (step w.state).1] }) := rfl

theorem bind_bind {σ α β γ : Type} (m : M σ α) (g : α → M σ β) (f : β → M σ γ) :
    (m >>= g) >>= f = m >>= fun a => g a >>= f := by
  funext w
  simp only [run_bind]
  rcases m w with ⟨_ | _, _⟩ <;> rfl

theorem pure_then {σ α β : Type} (a : α) (f : α → M σ β) :
    (pure a : M σ α) >>= f = f a := rfl

theorem throw_then {σ α β : Type} (e : JsError) (f : α → M σ β) :
    (throw e : M σ α) >>= f = throw e := rfl

theorem run_tryCatch_pure {σ α : Type} (a : α) (h : JsError → M σ α) (w : World σ) :
    (tryCatch (pure a) h) w = (.ok a, w) := rfl

theorem run_tryCatch_throw {σ α : Type} (e : JsError) (h : JsError → M σ α)
    (w : World σ) : (tryCatch (throw e) h) w = h e w := rfl

theorem tryCatch_rethrow {σ α : Type} (m : M σ α) :
    tryCatch m (fun e => (throw e : M σ α)) = m := by
  funext w
  simp only [run_tryCatch, run_throw]
  rcases m w with ⟨_ | _, _⟩ <;> rfl

/-- A call followed by more code: one case per outcome of the call. -/
theorem run_call_then {σ α β : Type} (step : σ → Except JsError α × σ)
    (event : Except JsError α → Event) (f : α → M σ β) (w : World σ) :
    (call step event >>= f) w =
      match step w.state with
      | (.ok a, s1) => f a { state := s1, trace := w.trace ++ [event (.ok a)] }
      | (.error e, s1) => (.error e, { state := s1, trace := w.trace ++ [event (.error e)] }) := by
  simp only [run_bind, run_call]
  rcases step w.state with ⟨_ | _, _⟩ <;> rfl

/-- A call in tail position. -/
theorem run_call_last {σ α : Type} (step : σ → Except JsError α × σ)
    (event : Except JsError α → Event) (w : World σ) :
    call step event w =
      match step w.state with
      | (.ok a, s1) => (.ok a, { state := s1, trace := w.trace ++ [event (.ok a)] })
      | (.error e, s1) => (.error e, { state := s1, trace := w.trace ++ [event (.error e)] }) := by
  simp only [run_call]
  rcases step w.state with ⟨_ | _, _⟩ <;> rfl

/-- A call followed by more code, inside a `try`. -/
theorem run_tryCatch_call_then {σ α β : Type} (step : σ → Except JsError α × σ)
    (event : Except JsError α → Event) (f : α → M σ β) (h : JsError → M σ β)
    (w : World σ) :
    (tryCatch (call step event >>= f) h) w =
      match step w.state with
      | (.ok a, s1) => tryCatch (f a) h { state := s1, trace := w.trace ++ [event (.ok a)] }
      | (.error e, s1) => h e { state := s1, trace := w.trace ++ [event (.error e)] } := by
  simp only [run_tryCatch, run_bind, run_call]
  rcases step w.state with ⟨_ | _, _⟩ <;> rfl

/-- A call that is the whole `try` block. -/
theorem run_tryCatch_call {σ α : Type} (step : σ → Except JsError α × σ)
    (event : Except JsError α → Event) (h : JsError → M σ α) (w : World σ) :
    (tryCatch (call step event) h) w =
      match step w.state with
      | (.ok a, s1) => (.ok a, { state := s1, trace := w.trace ++ [event (.ok a)] })
      | (.error e, s1) => h e { state := s1, trace := w.trace ++ [event (.error e)] } := by
  simp only [run_tryCatch, run_call]
  rcases step w.state with ⟨_ | _, _⟩ <;> rfl

/-- A call with its own `try`, followed by more code, inside an outer `try`. -/
theorem run_tryCatch_tryCatch_call_then {σ α β : Type} (step : σ → Except JsError α × σ)
    (event : Except JsError α → Event) (h : JsError → M σ α) (f : α → M σ β)
    (k : JsError → M σ β) (w : World σ) :
    (tryCatch (tryCatch (call step event) h >>= f) k) w =
      match step w.state with
      | (.ok a, s1) => tryCatch (f a) k { state := s1, trace := w.trace ++ [event (.ok a)] }
      | (.error e, s1) =>
        tryCatch (h e >>= f) k { state := s1, trace := w.trace ++ [event (.error e)] } := by
  simp only [run_tryCatch, run_bind, run_call]
  rcases step w.state with ⟨_ | _, _⟩ <;> rfl

/-! ## Lemmas on the merge -/

theorem mem_setAdd (s : List String) (x y : String) :
    y ∈ setAdd s x ↔ y ∈ s ∨ y = x := by
  unfold setAdd
  split
  · constructor
    · exact fun h => Or.inl h
    · rintro (h | rfl)
      · exact h
      · assumption
  · simp

theorem mem_foldl_setAdd (xs : List String) :
    ∀ (acc : List String) (y : String), y ∈ xs.foldl setAdd acc ↔ y ∈ acc ∨ y ∈ xs := by
  induction xs with
  | nil => intro acc y; simp
  | cons x xs ih =>
    intro acc y
    rw [List.foldl_cons, ih, mem_setAdd, List.mem_cons]
    tauto

theorem mem_newSet (xs : List String) (y : String) : y ∈ newSet xs ↔ y ∈ xs := by
  unfold newSet
  rw [mem_foldl_setAdd]
  simp

theorem nodup_setAdd (s : List String) (x : String) (h : s.Nodup) : (setAdd s x).Nodup := by
  unfold setAdd
  split
  · exact h
  · rename_i hx
    rw [List.nodup_append]
    refine ⟨h, List.nodup_singleton x, ?_⟩
    intro a ha hb
    rw [List.mem_singleton] at hb
    exact hx (hb ▸ ha)

theorem nodup_foldl_setAdd (xs : List String) :
    ∀ acc : List String, acc.Nodup → (xs.foldl setAdd acc).Nodup := by
  induction xs with
  | nil => intro acc h; exact h
  | cons x xs ih =>
    intro acc h
    rw [List.foldl_cons]
    exact ih _ (nodup_setAdd acc x h)

theorem nodup_newSet (xs : List String) : (newSet xs).Nodup :=
  nodup_foldl_setAdd xs [] List.nodup_nil

/-- Adding values that are all present changes nothing. -/
theorem foldl_setAdd_of_mem (xs : List String) :
    ∀ acc : List String, (∀ x ∈ xs, x ∈ acc) → xs.foldl setAdd acc = acc := by
  induction xs with
  | nil => intro acc _; rfl
  | cons x xs ih =>
    intro acc h
    have hx : x ∈ acc := h x (List.mem_cons_self x xs)
    rw [List.foldl_cons]
    have hadd : setAdd acc x = acc := by
      unfold setAdd
      rw [if_pos hx]
    rw [hadd]
    exact ih acc (fun y hy => h y (List.mem_cons_of_mem x hy))

/-- Adding distinct values that are all new appends them in order. -/
theorem foldl_setAdd_of_nodup (xs : List String) :
    ∀ acc : List String, xs.Nodup → (∀ x ∈ xs, x ∉ acc) →
      xs.foldl setAdd acc = acc ++ xs := by
  induction xs with
  | nil => intro acc _ _; simp
  | cons x xs ih =>
    intro acc hnd h
    have hx : x ∉ acc := h x (List.mem_cons_self x xs)
    rw [List.nodup_cons] at hnd
    rw [List.foldl_cons]
    have hadd : setAdd acc x = acc ++ [x] := by
      unfold setAdd
      rw [if_neg hx]
    rw [hadd, ih (acc ++ [x]) hnd.2]
    · simp
    · intro y hy hmem
      rw [List.mem_append, List.mem_singleton] at hmem
      rcases hmem with hmem | hmem
      · exact h y (List.mem_cons_of_mem x hy) hmem
      · exact hnd.1 (hmem ▸ hy)

theorem newSet_of_nodup (xs : List String) (h : xs.Nodup) : newSet xs = xs := by
  unfold newSet
  rw [foldl_setAdd_of_nodup xs [] h (fun _ _ => List.not_mem_nil _)]
  simp

theorem newSet_append (xs ys : List String) :
    newSet (xs ++ ys) = ys.foldl setAdd (newSet xs) := by
  unfold newSet
  rw [List.foldl_append]

/-- With a duplicate-free list read, the merged list is longer than the list
read exactly when some candidate is not in the list read. -/
theorem length_newSet_append_ne_iff (xs ys : List String) (h : xs.Nodup) :
    ((newSet (xs ++ ys)).length ≠ xs.length ↔ ∃ a ∈ ys, a ∉ xs) := by
  have h1 : (newSet (xs ++ ys)).length = (xs.toFinset ∪ ys.toFinset).card := by
    rw [← List.toFinset_card_of_nodup (nodup_newSet _), ← List.toFinset_append]
    congr 1
    ext a
    simp [mem_newSet]
  have h2 : xs.length = xs.toFinset.card := (List.toFinset_card_of_nodup h).symm
  rw [h1, h2]
  constructor
  · intro hne
    by_contra hall
    push_neg at hall
    apply hne
    congr 1
    ext a
    simp only [Finset.mem_union, List.mem_toFinset]
    exact ⟨fun h => h.elim id (hall a), Or.inl⟩
  · rintro ⟨a, hay, hax⟩ heq
    have hsub : xs.toFinset ⊆ xs.toFinset ∪ ys.toFinset := Finset.subset_union_left
    have := Finset.eq_of_subset_of_card_le hsub heq.le
    have ha : a ∈ xs.toFinset := by
      rw [this]
      simp [hay]
    exact hax (List.mem_toFinset.mp ha)

/-- For a limit within the bounds, the decided limit differs from it exactly
when the increase rule or the decrease rule fired. -/
theorem decideLimit_ne_iff (currentLimit blockedRequests : ℚ)
    (hlo : MIN_RATE_LIMIT ≤ currentLimit) (hhi : currentLimit ≤ MAX_RATE_LIMIT) :
    decideLimit currentLimit blockedRequests ≠ currentLimit ↔
      (blockedRequests / currentLimit > 4 / 5 ∧ currentLimit < MAX_RATE_LIMIT) ∨
      (blockedRequests / currentLimit < 1 / 5 ∧ currentLimit > MIN_RATE_LIMIT) := by
  have h1 : (1000 : ℚ) ≤ currentLimit := hlo
  have h2 : currentLimit ≤ (10000 : ℚ) := hhi
  simp only [decideLimit, blockRateOf, RATE_INCREASE_THRESHOLD, RATE_DECREASE_THRESHOLD,
    MIN_RATE_LIMIT, MAX_RATE_LIMIT]
  by_cases hA : blockedRequests / currentLimit > 4 / 5 ∧ currentLimit < 10000
  · rw [if_pos hA]
    refine ⟨fun _ => Or.inl hA, fun _ h => ?_⟩
    have h3 : currentLimit < min (currentLimit * (3 / 2)) 10000 :=
      lt_min (by linarith) hA.2
    linarith
  · rw [if_neg hA]
    by_cases hB : blockedRequests / currentLimit < 1 / 5 ∧ currentLimit > 1000
    · rw [if_pos hB]
      refine ⟨fun _ => Or.inr hB, fun _ h => ?_⟩
      have h3 : max (currentLimit * (4 / 5)) 1000 < currentLimit :=
        max_lt (by linarith) hB.2
      linarith
    · rw [if_neg hB]
      exact ⟨fun h => absurd rfl h,
        fun h => h.elim (fun h => absurd h hA) (fun h => absurd h hB)⟩

/-! ## The rate-limit decision -/

/-- Claim C1. Increase rule: when `0 < currentLimit < MAX_RATE_LIMIT`, the
block count is not negative and `blockedRequests / currentLimit > 0.8`, the
decided limit is `min (currentLimit * 1.5) MAX_RATE_LIMIT`, and it is at least
`currentLimit`. -/
theorem decideLimit_increase (currentLimit blockedRequests : ℚ)
    (hpos : 0 < currentLimit) (hmax : currentLimit < MAX_RATE_LIMIT)
    (_hcount : 0 ≤ blockedRequests) (hratio : blockedRequests / currentLimit > 4 / 5) :
    decideLimit currentLimit blockedRequests = min (currentLimit * (3 / 2)) MAX_RATE_LIMIT ∧
      currentLimit ≤ decideLimit currentLimit blockedRequests := by
  have h1 : decideLimit currentLimit blockedRequests =
      min (currentLimit * (3 / 2)) MAX_RATE_LIMIT := by
    simp only [decideLimit, blockRateOf, RATE_INCREASE_THRESHOLD]
    rw [if_pos ⟨hratio, hmax⟩]
  refine ⟨h1, ?_⟩
  rw [h1]
  exact le_min (by linarith) hmax.le

/-- The example of C1: limit 5000 with 4500 blocked requests gives 7500. -/
theorem decideLimit_increase_witness : decideLimit 5000 4500 = 7500 := by
  rw [(decideLimit_increase 5000 4500 (by norm_num) (by norm_num [MAX_RATE_LIMIT])
    (by norm_num) (by norm_num)).1]
  norm_num [MAX_RATE_LIMIT]

/-- Claim C2. Decrease rule: when `currentLimit > MIN_RATE_LIMIT`, the block
count is not negative and `blockedRequests / currentLimit < 0.2`, the decided
limit is `max (currentLimit * 0.8) MIN_RATE_LIMIT`, and it is at most
`currentLimit`. -/
theorem decideLimit_decrease (currentLimit blockedRequests : ℚ)
    (hmin : currentLimit > MIN_RATE_LIMIT) (_hcount : 0 ≤ blockedRequests)
    (hratio : blockedRequests / currentLimit < 1 / 5) :
    decideLimit currentLimit blockedRequests = max (currentLimit * (4 / 5)) MIN_RATE_LIMIT ∧
      decideLimit currentLimit blockedRequests ≤ currentLimit := by
  have hc : (1000 : ℚ) < currentLimit := hmin
  have h1 : decideLimit currentLimit blockedRequests =
      max (currentLimit * (4 / 5)) MIN_RATE_LIMIT := by
    simp only [decideLimit, blockRateOf, RATE_INCREASE_THRESHOLD, RATE_DECREASE_THRESHOLD]
    rw [if_neg (fun h => by linarith [h.1]), if_pos ⟨hratio, hmin⟩]
  refine ⟨h1, ?_⟩
  rw [h1]
  exact max_le (by linarith) hmin.le

/-- The example of C2: limit 2000 with 100 blocked requests gives 1600. -/
theorem decideLimit_decrease_witness : decideLimit 2000 100 = 1600 := by
  rw [(decideLimit_decrease 2000 100 (by norm_num [MIN_RATE_LIMIT]) (by norm_num)
    (by norm_num)).1]
  norm_num [MIN_RATE_LIMIT]

/-- Claim C3. Hysteresis band: when `currentLimit > 0`, the block count is not
negative and `0.2 ≤ blockedRequests / currentLimit ≤ 0.8` (both ends included),
the decided limit is `currentLimit`; and in every run of the handler in which
the fetched limit and the window's block count are these, no policy write
(`updateWebACL`) is issued. -/
theorem hysteresis_band_noop (currentLimit blockedRequests : ℚ)
    (_hpos : 0 < currentLimit) (_hcount : 0 ≤ blockedRequests)
    (hlo : 1 / 5 ≤ blockedRequests / currentLimit)
    (hhi : blockedRequests / currentLimit ≤ 4 / 5) :
    decideLimit currentLimit blockedRequests = currentLimit ∧
    ∀ {σ : Type} (env : Env σ) (cfg : Config) (s s1 s2 : σ) (response : GetWebACLResponse)
      (rule : Rule) (rbs : RateBasedStatement) (metrics : GetMetricDataResponse)
      (result : MetricDataResult),
      env.getWebACL { Id := cfg.WEB_ACL_ID, Name := cfg.WEB_ACL_NAME, Scope := "REGIONAL" } s =
        (.ok response, s1) →
      response.WebACL.Rules.find? (fun r => r.Name == "RateBasedProtection") = some rule →
      rule.Statement.RateBasedStatement = some rbs →
      rbs.Limit = currentLimit →
      env.getMetricData (windowQuery cfg.WEB_ACL_NAME) s1 = (.ok metrics, s2) →
      metrics.MetricDataResults.head? = some result →
      blockedRequestsOf result.Values = blockedRequests →
      ∀ ev ∈ (runHandler env cfg s).2.trace, ev.isUpdateWebACL = false := by
  have hnoop : decideLimit currentLimit blockedRequests = currentLimit := by
    simp only [decideLimit, blockRateOf, RATE_INCREASE_THRESHOLD, RATE_DECREASE_THRESHOLD]
    rw [if_neg (fun h => by linarith [h.1]), if_neg (fun h => by linarith [h.1])]
  refine ⟨hnoop, ?_⟩
  intro σ env cfg s s1 s2 response rule rbs metrics result hget hfind hstmt hlimit hquery
    hhead hblocked
  simp only [runHandler, handler, handlerBody, getCurrentRateLimit, updateRateLimit,
    getBlockedIPs, getBlockCounts, updateBlockedIPs, publishMetrics, tryCatch_rethrow,
    bind_bind]
  simp only [pure_then, throw_then, run_tryCatch_pure, run_tryCatch_throw,
    run_call_then, run_tryCatch_call_then, run_tryCatch_tryCatch_call_then, run_pure,
    bind_bind, hget, hfind, hstmt, hlimit, hquery, hhead, hblocked, hnoop, ne_eq,
    not_true_eq_false, if_false]
  repeat' (first
    | simp only [pure_then, throw_then, run_tryCatch_pure, run_tryCatch_throw,
        run_call_then, run_tryCatch_call_then, run_tryCatch_tryCatch_call_then, run_pure,
        bind_bind]
    | split)
  all_goals simp [Event.isUpdateWebACL]

/-- The witness of C3: limit 5000 with 2500 blocked requests in the window; the
run on `sampleCloud` issues no policy write. -/
theorem hysteresis_band_noop_witness :
    decideLimit 5000 2500 = 5000 ∧
      ∀ ev ∈ (runHandler cloudEnv sampleConfig sampleCloud).2.trace,
        ev.isUpdateWebACL = false :=
  ⟨(hysteresis_band_noop 5000 2500 (by norm_num) (by norm_num) (by norm_num)
      (by norm_num)).1,
    (hysteresis_band_noop 5000 2500 (by norm_num) (by norm_num) (by norm_num)
      (by norm_num)).2 cloudEnv sampleConfig sampleCloud _ _ _ _ _ _ _
      rfl rfl rfl rfl rfl rfl (by decide!)⟩

/-- Counterexample to C4 as stated: a fetched limit of 500 with 200 blocked
requests meets the preconditions and the decided limit is 500, below
`MIN_RATE_LIMIT`. -/
theorem rate_limit_bounds_counterexample :
    (0 : ℚ) < 500 ∧ (0 : ℚ) ≤ 200 ∧ decideLimit 500 200 = 500 ∧
      ¬ (MIN_RATE_LIMIT ≤ decideLimit 500 200 ∧ decideLimit 500 200 ≤ MAX_RATE_LIMIT) := by
  norm_num [decideLimit, blockRateOf, RATE_INCREASE_THRESHOLD, MAX_RATE_LIMIT,
    RATE_DECREASE_THRESHOLD, MIN_RATE_LIMIT]

/-- Claim C4, amended. The decision keeps a limit that is within bounds within
bounds: when `MIN_RATE_LIMIT ≤ currentLimit ≤ MAX_RATE_LIMIT` and the block
count is not negative, `MIN_RATE_LIMIT ≤ newLimit ≤ MAX_RATE_LIMIT`. -/
theorem rate_limit_bounds_preserved (currentLimit blockedRequests : ℚ)
    (hlo : MIN_RATE_LIMIT ≤ currentLimit) (hhi : currentLimit ≤ MAX_RATE_LIMIT)
    (_hcount : 0 ≤ blockedRequests) :
    MIN_RATE_LIMIT ≤ decideLimit currentLimit blockedRequests ∧
      decideLimit currentLimit blockedRequests ≤ MAX_RATE_LIMIT := by
  have h1 : (1000 : ℚ) ≤ currentLimit := hlo
  have h2 : currentLimit ≤ (10000 : ℚ) := hhi
  simp only [decideLimit, MIN_RATE_LIMIT, MAX_RATE_LIMIT]
  split_ifs
  · exact ⟨le_min (by linarith) (by norm_num), min_le_right _ _⟩
  · exact ⟨le_max_right _ _, max_le (by linarith) (by norm_num)⟩
  · exact ⟨h1, h2⟩

/-- The example of C4: limit 9000 at block ratio 0.85 (7650 blocked requests)
gives `min 13500 10000 = 10000`, within the bounds. -/
theorem rate_limit_bounds_preserved_witness :
    decideLimit 9000 7650 = 10000 ∧
      MIN_RATE_LIMIT ≤ decideLimit 9000 7650 ∧ decideLimit 9000 7650 ≤ MAX_RATE_LIMIT :=
  ⟨by norm_num [decideLimit, blockRateOf, RATE_INCREASE_THRESHOLD, MAX_RATE_LIMIT],
    rate_limit_bounds_preserved 9000 7650 (by norm_num [MIN_RATE_LIMIT])
      (by norm_num [MAX_RATE_LIMIT]) (by norm_num)⟩

/-- Counterexample to C5 as stated: the integer limit 1001 with 1000 blocked
requests gives `1501.5`, which is no integer, and the handler writes that value
to the policy's `RateBasedStatement.Limit`. -/
theorem newLimit_integer_counterexample :
    decideLimit ((1001 : ℤ) : ℚ) ((1000 : ℤ) : ℚ) = 3003 / 2 ∧
      (¬ ∃ n : ℤ, decideLimit ((1001 : ℤ) : ℚ) ((1000 : ℤ) : ℚ) = n) ∧
      (runHandler cloudEnv sampleConfig oddLimitCloud).2.state.webACL.Rules =
        [geoRule, rateRule (3003 / 2)] := by
  have h : decideLimit ((1001 : ℤ) : ℚ) ((1000 : ℤ) : ℚ) = 3003 / 2 := by
    norm_num [decideLimit, blockRateOf, RATE_INCREASE_THRESHOLD, MAX_RATE_LIMIT,
      RATE_DECREASE_THRESHOLD, MIN_RATE_LIMIT]
  refine ⟨h, ?_, by decide!⟩
  rw [h]
  rintro ⟨n, hn⟩
  have h2 : (3003 : ℚ) = 2 * n := by linarith
  have h3 : (3003 : ℤ) = 2 * n := by exact_mod_cast h2
  omega

/-- Claim C5, amended. For an integer limit `currentLimit > 0` and an integer
block count that is not negative, the decided limit is an integer exactly when
it is neither the unclamped product of an odd limit by `3/2` (increase rule,
`currentLimit ≤ 6666`) nor the unclamped product by `4/5` of a limit that 5 does
not divide (decrease rule, `currentLimit > 1250`): no rounding is applied. -/
theorem newLimit_integer_iff (currentLimit blockedRequests : ℤ)
    (_hpos : 0 < currentLimit) (_hcount : 0 ≤ blockedRequests) :
    (∃ n : ℤ, decideLimit currentLimit blockedRequests = n) ↔
      ¬ ((blockedRequests : ℚ) / currentLimit > 4 / 5 ∧ currentLimit ≤ 6666 ∧
          currentLimit % 2 = 1) ∧
      ¬ ((blockedRequests : ℚ) / currentLimit < 1 / 5 ∧ 1250 < currentLimit ∧
          currentLimit % 5 ≠ 0) := by
  simp only [decideLimit, blockRateOf, RATE_INCREASE_THRESHOLD, RATE_DECREASE_THRESHOLD,
    MIN_RATE_LIMIT, MAX_RATE_LIMIT]
  by_cases hA : (blockedRequests : ℚ) / currentLimit > 4 / 5 ∧ (currentLimit : ℚ) < 10000
  · rw [if_pos hA]
    have hnotlow : ¬ (blockedRequests : ℚ) / currentLimit < 1 / 5 := by linarith [hA.1]
    by_cases hc : currentLimit ≤ 6666
    · have hcq : (currentLimit : ℚ) ≤ 6666 := by exact_mod_cast hc
      rw [min_eq_left (by linarith)]
      constructor
      · rintro ⟨n, hn⟩
        have h2 : (3 : ℚ) * currentLimit = 2 * n := by linarith
        have h3 : 3 * currentLimit = 2 * n := by exact_mod_cast h2
        exact ⟨fun h => by omega, fun h => hnotlow h.1⟩
      · rintro ⟨h, _⟩
        have heven : currentLimit % 2 = 0 := by
          by_contra hodd
          exact h ⟨hA.1, hc, by omega⟩
        refine ⟨3 * (currentLimit / 2), ?_⟩
        have h4 : currentLimit = 2 * (currentLimit / 2) := by omega
        have h5 : (currentLimit : ℚ) = 2 * ((currentLimit / 2 : ℤ) : ℚ) := by
          exact_mod_cast h4
        push_cast
        linarith
    · have hc2 : 6667 ≤ currentLimit := by omega
      have hcq : (6667 : ℚ) ≤ currentLimit := by exact_mod_cast hc2
      rw [min_eq_right (by linarith)]
      constructor
      · intro _
        exact ⟨fun h => hc h.2.1, fun h => hnotlow h.1⟩
      · intro _
        exact ⟨10000, by norm_num⟩
  · rw [if_neg hA]
    by_cases hB : (blockedRequests : ℚ) / currentLimit < 1 / 5 ∧ (currentLimit : ℚ) > 1000
    · rw [if_pos hB]
      have hnothigh : ¬ (blockedRequests : ℚ) / currentLimit > 4 / 5 := by linarith [hB.1]
      by_cases hc : 1250 < currentLimit
      · have hcq : (1250 : ℚ) < currentLimit := by exact_mod_cast hc
        rw [max_eq_left (by linarith)]
        constructor
        · rintro ⟨n, hn⟩
          have h2 : (4 : ℚ) * currentLimit = 5 * n := by linarith
          have h3 : 4 * currentLimit = 5 * n := by exact_mod_cast h2
          exact ⟨fun h => hnothigh h.1, fun h => h.2.2 (by omega)⟩
        · rintro ⟨_, h⟩
          have hdiv : currentLimit % 5 = 0 := by
            by_contra hnd
            exact h ⟨hB.1, hc, hnd⟩
          refine ⟨4 * (currentLimit / 5), ?_⟩
          have h4 : currentLimit = 5 * (currentLimit / 5) := by omega
          have h5 : (currentLimit : ℚ) = 5 * ((currentLimit / 5 : ℤ) : ℚ) := by
            exact_mod_cast h4
          push_cast
          linarith
      · have hc2 : currentLimit ≤ 1250 := by omega
        have hcq : (currentLimit : ℚ) ≤ 1250 := by exact_mod_cast hc2
        rw [max_eq_right (by linarith)]
        constructor
        · intro _
          exact ⟨fun h => hnothigh h.1, fun h => hc h.2.1⟩
        · intro _
          exact ⟨1000, by norm_num⟩
    · rw [if_neg hB]
      constructor
      · intro _
        refine ⟨fun h => hA ⟨h.1, ?_⟩, fun h => hB ⟨h.1, ?_⟩⟩
        · have h6 : (currentLimit : ℚ) ≤ 6666 := by exact_mod_cast h.2.1
          linarith
        · have h6 : (1250 : ℚ) < currentLimit := by exact_mod_cast h.2.1
          linarith
      · intro _
        exact ⟨currentLimit, rfl⟩

/-- The witness of C5: the even limit 5000 with 4500 blocked requests gives the
integer 7500. -/
theorem newLimit_integer_iff_witness :
    ∃ n : ℤ, decideLimit ((5000 : ℤ) : ℚ) ((4500 : ℤ) : ℚ) = n :=
  (newLimit_integer_iff 5000 4500 (by norm_num) (by norm_num)).2
    ⟨fun h => by omega, fun h => by norm_num at h⟩

/-! ## updateRateLimit -/

/-- Claim C6. In `updateRateLimit` the `RateLimitAdjustment` metric is
published exactly when the policy write succeeded. The calls of a run are of
one of three shapes: the fetch fails, nothing else is called and the error is
thrown; the fetch succeeds and the update fails, no metric is published and the
error is thrown; the fetch and the update succeed, and exactly one metric, of
value `newLimit - currentLimit`, is published. -/
theorem updateRateLimit_metric_iff_written {σ : Type} (env : Env σ)
    (webAclId webAclName : Option String) (currentLimit newLimit : ℚ) (w : World σ) :
    let out := updateRateLimit env webAclId webAclName currentLimit newLimit w
    let metric : PutMetricDataParams :=
      { Namespace := "MinecraftWAF"
        MetricData :=
          [{ MetricName := "RateLimitAdjustment"
             Value := newLimit - currentLimit
             Unit := "Count"
             Dimensions := [("WebACL", webAclName)] }] }
    (∃ q e, out.1 = .error e ∧ out.2.trace = w.trace ++ [Event.getWebACL q (.error e)]) ∨
    (∃ q resp p e, out.1 = .error e ∧
      out.2.trace =
        w.trace ++ [Event.getWebACL q (.ok resp), Event.updateWebACL p (.error e)]) ∨
    (∃ q resp p r, out.1 = r ∧
      out.2.trace =
        w.trace ++ [Event.getWebACL q (.ok resp), Event.updateWebACL p (.ok ()),
          Event.putMetricData metric r]) := by
  intro out metric
  simp only [out, metric, updateRateLimit, run_call_then, run_call_last]
  split
  · right
    split
    · right
      split <;> simp only [List.append_assoc, List.singleton_append, List.cons_append,
        List.nil_append] <;> exact ⟨_, _, _, _, rfl, rfl⟩
    · left
      simp only [List.append_assoc, List.singleton_append, List.cons_append, List.nil_append]
      exact ⟨_, _, _, _, rfl, rfl⟩
  · left
    exact ⟨_, _, rfl, rfl⟩

theorem getElem?_map_updateRule (newLimit : ℚ) (rules : List Rule) (i : Nat) :
    (rules.map (updateRule newLimit))[i]? = (rules[i]?).map (updateRule newLimit) := by
  simp

theorem updateRule_frame (newLimit : ℚ) (old : Rule) :
    (updateRule newLimit old).Name = old.Name ∧
      (updateRule newLimit old).rest = old.rest ∧
      (updateRule newLimit old).Statement.rest = old.Statement.rest ∧
      (old.Name ≠ "RateBasedProtection" → updateRule newLimit old = old) ∧
      (old.Name = "RateBasedProtection" →
        ∃ rbs : RateBasedStatement,
          (updateRule newLimit old).Statement.RateBasedStatement = some rbs ∧
          rbs.Limit = newLimit ∧
          rbs.rest =
            match old.Statement.RateBasedStatement with
            | some o => o.rest
            | none => []) := by
  unfold updateRule
  by_cases h : old.Name = "RateBasedProtection"
  · rw [if_pos h]
    refine ⟨rfl, rfl, rfl, fun hne => absurd h hne, fun _ => ?_⟩
    cases hs : old.Statement.RateBasedStatement with
    | none => exact ⟨_, rfl, rfl, rfl⟩
    | some o => exact ⟨_, rfl, rfl, rfl⟩
  · rw [if_neg h]
    exact ⟨rfl, rfl, rfl, fun _ => rfl, fun heq => absurd heq h⟩

theorem onlyLimitReplaced_map (newLimit : ℚ) (fetched : WebACL) (id name : Option String)
    (scope token : String) :
    onlyLimitReplaced newLimit fetched
      { Id := id
        Name := name
        Scope := scope
        Rules := fetched.Rules.map (updateRule newLimit)
        LockToken := token
        DefaultAction := fetched.DefaultAction
        Description := fetched.Description
        VisibilityConfig := fetched.VisibilityConfig } := by
  refine ⟨by simp, ?_, rfl, rfl, rfl⟩
  intro i old hold
  refine ⟨updateRule newLimit old, ?_, updateRule_frame newLimit old⟩
  simp only [getElem?_map_updateRule, hold, Option.map_some']

/-- Claim C7. `updateRateLimit` replaces only the rate-limit field: for every
fetched policy, the run's calls start with the fetch and the update, no later
call is a policy write, and the policy sent is the fetched one with only the
limit replaced (`onlyLimitReplaced`). -/
theorem updateRateLimit_replaces_only_limit {σ : Type} (env : Env σ)
    (webAclId webAclName : Option String) (currentLimit newLimit : ℚ) (w : World σ)
    (response : GetWebACLResponse) (s1 : σ)
    (hget : env.getWebACL { Id := webAclId, Name := webAclName, Scope := "REGIONAL" } w.state =
      (.ok response, s1)) :
    ∃ (sent : UpdateWebACLParams) (r : Except JsError Unit) (rest : List Event),
      (updateRateLimit env webAclId webAclName currentLimit newLimit w).2.trace =
        w.trace ++
          [Event.getWebACL { Id := webAclId, Name := webAclName, Scope := "REGIONAL" }
            (.ok response), Event.updateWebACL sent r] ++ rest ∧
      (∀ ev ∈ rest, ev.isUpdateWebACL = false) ∧
      onlyLimitReplaced newLimit response.WebACL sent := by
  simp only [updateRateLimit, run_call_then, run_call_last, hget]
  split
  · split <;> simp only [List.append_assoc, List.singleton_append, List.cons_append,
      List.nil_append] <;>
      exact ⟨_, _, [_], rfl, by simp [Event.isUpdateWebACL], onlyLimitReplaced_map _ _ _ _ _ _⟩
  · simp only [List.append_assoc, List.singleton_append, List.cons_append, List.nil_append]
    exact ⟨_, _, [], rfl, by simp, onlyLimitReplaced_map _ _ _ _ _ _⟩

/-- The witness of C7: the policy of `sampleCloud`, with a rule of another kind
before the rate rule, and the new limit 7500. -/
theorem updateRateLimit_replaces_only_limit_witness :
    ∃ (sent : UpdateWebACLParams) (r : Except JsError Unit) (rest : List Event),
      (updateRateLimit cloudEnv (some "acl-id") (some "acl") 5000 7500
          { state := sampleCloud, trace := [] }).2.trace =
        [] ++
          [Event.getWebACL { Id := some "acl-id", Name := some "acl", Scope := "REGIONAL" }
            (.ok { WebACL := sampleCloud.webACL, LockToken := "a" }),
            Event.updateWebACL sent r] ++ rest ∧
      (∀ ev ∈ rest, ev.isUpdateWebACL = false) ∧
      onlyLimitReplaced 7500 sampleCloud.webACL sent :=
  updateRateLimit_replaces_only_limit cloudEnv (some "acl-id") (some "acl") 5000 7500
    { state := sampleCloud, trace := [] } { WebACL := sampleCloud.webACL, LockToken := "a" }
    sampleCloud.arrive rfl

/-! ## Lock tokens and the address set -/

/-- Claim C8. Every write carries the lock token of a read made right before
it: in `updateRateLimit`, in `updateBlockedIPs` (each run from an empty trace,
so the read is the function's own) and in the whole handler, a policy write
directly follows a successful policy fetch and carries the token that fetch
returned, and an address-set write directly follows a successful address-set
fetch and carries the token that fetch returned. In the handler the fetch
before the address-set write is the one inside `updateBlockedIPs`, not the
earlier read of `getBlockedIPs`. -/
theorem lock_tokens_fresh {σ : Type} (env : Env σ) (cfg : Config) :
    (∀ (webAclId webAclName : Option String) (currentLimit newLimit : ℚ) (s : σ),
      tokensFresh none
        (updateRateLimit env webAclId webAclName currentLimit newLimit
          { state := s, trace := [] }).2.trace = true) ∧
    (∀ (newIPs : List String) (s : σ),
      tokensFresh none
        (updateBlockedIPs env cfg newIPs { state := s, trace := [] }).2.trace = true) ∧
    (∀ s : σ, tokensFresh none (runHandler env cfg s).2.trace = true) := by
  refine ⟨?_, ?_, ?_⟩
  · intro webAclId webAclName currentLimit newLimit s
    simp only [updateRateLimit, run_call_then, run_call_last]
    repeat' split
    all_goals simp [tokensFresh, writeFollowsRead]
  · intro newIPs s
    simp only [updateBlockedIPs, tryCatch_rethrow, run_call_then, run_call_last]
    repeat' split
    all_goals simp [tokensFresh, writeFollowsRead]
  · intro s
    simp only [runHandler, handler, handlerBody, getCurrentRateLimit, updateRateLimit,
      getBlockedIPs, getBlockCounts, updateBlockedIPs, publishMetrics, tryCatch_rethrow,
      bind_bind]
    repeat' (first
      | simp only [pure_then, throw_then, run_tryCatch_pure, run_tryCatch_throw,
          run_call_then, run_tryCatch_call_then, run_tryCatch_tryCatch_call_then, run_pure,
          bind_bind]
      | split)
    all_goals simp [tokensFresh, writeFollowsRead]

/-- An instance of C8: in the run on `racingCloud` the read of `getBlockedIPs`
returned the token `t`, another actor changed the set, and the write carried
`t*`, the token of the fetch made right before it. -/
theorem lock_tokens_fresh_witness :
    tokensFresh none (runHandler cloudEnv sampleConfig racingCloud).2.trace = true ∧
      (runHandler cloudEnv sampleConfig racingCloud).2.trace[2]? =
        some (Event.getIPSet { Scope := "REGIONAL", Id := some "set-id", Name := some "set" }
          (.ok { IPSet := { Addresses := ["1.2.3.4/32"] }, LockToken := "t" })) ∧
      (runHandler cloudEnv sampleConfig racingCloud).2.trace[6]? =
        some (Event.updateIPSet
          { Id := some "set-id", Name := some "set", Scope := "REGIONAL",
            Addresses := ["1.2.3.4/32", "5.6.7.8/32"], LockToken := "t*" } (.ok ())) :=
  ⟨(lock_tokens_fresh cloudEnv sampleConfig).2.2 racingCloud, by decide!, by decide!⟩

/-- Claim C9, the code at a failing input. On `racingCloud` another actor adds
`9.9.9.9/32` after the handler's read of the address set and before its
commit. The token fetch inside `updateBlockedIPs` sees the addition (the store
holds it right before the write), the write carries that fresh token together
with the list merged from the earlier read, the store accepts it, the handler
reports success, and `9.9.9.9/32` is no longer in the stored set. -/
theorem concurrent_addition_lost :
    (runHandler cloudEnv sampleConfig racingCloud).2.trace[2]? =
        some (Event.getIPSet { Scope := "REGIONAL", Id := some "set-id", Name := some "set" }
          (.ok { IPSet := { Addresses := ["1.2.3.4/32"] }, LockToken := "t" })) ∧
      (runHandler cloudEnv sampleConfig racingCloud).2.trace[5]? =
        some (Event.getIPSet { Scope := "REGIONAL", Id := some "set-id", Name := some "set" }
          (.ok { IPSet := { Addresses := ["1.2.3.4/32", "9.9.9.9/32"] }, LockToken := "t*" })) ∧
      (runHandler cloudEnv sampleConfig racingCloud).2.trace[6]? =
        some (Event.updateIPSet
          { Id := some "set-id", Name := some "set", Scope := "REGIONAL",
            Addresses := ["1.2.3.4/32", "5.6.7.8/32"], LockToken := "t*" } (.ok ())) ∧
      ((runHandler cloudEnv sampleConfig racingCloud).1.map (fun r => r.statusCode)) =
        .ok 200 ∧
      (runHandler cloudEnv sampleConfig racingCloud).2.state.addresses =
        ["1.2.3.4/32", "5.6.7.8/32"] ∧
      "9.9.9.9/32" ∉ (runHandler cloudEnv sampleConfig racingCloud).2.state.addresses := by
  decide!

/-- The store of `cloudEnv` does reject a stale token: when the other actor's
addition lands after the token fetch (before call number 6, the write), the
write is refused, the handler reports status 500 and the addition stays. -/
theorem stale_token_rejected :
    ((runHandler cloudEnv sampleConfig
        { sampleCloud with operators := [(6, "9.9.9.9/32")] }).1.map
        (fun r => r.statusCode)) = .ok 500 ∧
      (runHandler cloudEnv sampleConfig
        { sampleCloud with operators := [(6, "9.9.9.9/32")] }).2.state.addresses =
        ["1.2.3.4/32", "9.9.9.9/32"] := by
  decide!

/-- Claim C10. The merge is set union, and the committed list is the merge of
the list read with the candidates: an address is in `newSet (current ++
candidates)` exactly when it is in `current` or in `candidates`; and in every
run of the handler, the `Addresses` of an address-set write are the merge of the
addresses returned by the run's first `getIPSet` call (the read of
`getBlockedIPs`) with the candidates extracted from the sample, so every
address that was read is in them. -/
theorem merge_is_union :
    (∀ (current candidates : List String) (x : String),
      x ∈ newSet (current ++ candidates) ↔ x ∈ current ∨ x ∈ candidates) ∧
    (∀ {σ : Type} (env : Env σ) (cfg : Config) (s : σ) (sent : UpdateIPSetParams)
      (r : Except JsError Unit),
      Event.updateIPSet sent r ∈ (runHandler env cfg s).2.trace →
      ∃ q read sq sampled,
        (runHandler env cfg s).2.trace.find? Event.isGetIPSet =
          some (Event.getIPSet q (.ok read)) ∧
        Event.getSampledRequests sq (.ok sampled) ∈ (runHandler env cfg s).2.trace ∧
        sent.Addresses =
          newSet (read.IPSet.Addresses ++ ipsToBlockOf sampled.SampledRequests) ∧
        ∀ a ∈ read.IPSet.Addresses, a ∈ sent.Addresses) := by
  refine ⟨fun current candidates x => by rw [mem_newSet, List.mem_append], ?_⟩
  intro σ env cfg s sent r
  generalize hout : runHandler env cfg s = out
  simp only [runHandler, handler, handlerBody, getCurrentRateLimit, updateRateLimit,
    getBlockedIPs, getBlockCounts, updateBlockedIPs, publishMetrics, tryCatch_rethrow,
    bind_bind] at hout
  repeat' (first
    | simp only [pure_then, throw_then, run_tryCatch_pure, run_tryCatch_throw,
        run_call_then, run_tryCatch_call_then, run_tryCatch_tryCatch_call_then, run_pure,
        bind_bind] at hout
    | split at hout)
  all_goals
    subst hout
    simp [Event.isGetIPSet]
  all_goals
    intro hsent _
    subst hsent
    refine ⟨_, _, ⟨rfl, rfl⟩, _, _, ⟨rfl, rfl⟩, rfl, ?_⟩
    intro a ha
    rw [mem_newSet]
    exact List.mem_append_left _ ha

/-- An instance of C10: in the run on `sampleCloud` the committed list is the
merge of the address read, `1.2.3.4/32`, with the two sampled blocked
addresses. -/
theorem merge_is_union_witness :
    ∃ q read sq sampled,
      (runHandler cloudEnv sampleConfig sampleCloud).2.trace.find? Event.isGetIPSet =
        some (Event.getIPSet q (.ok read)) ∧
      Event.getSampledRequests sq (.ok sampled) ∈
        (runHandler cloudEnv sampleConfig sampleCloud).2.trace ∧
      ["1.2.3.4/32", "5.6.7.8/32"] =
        newSet (read.IPSet.Addresses ++ ipsToBlockOf sampled.SampledRequests) ∧
      ∀ a ∈ read.IPSet.Addresses, a ∈ ["1.2.3.4/32", "5.6.7.8/32"] :=
  merge_is_union.2 cloudEnv sampleConfig sampleCloud
    { Id := some "set-id", Name := some "set", Scope := "REGIONAL",
      Addresses := ["1.2.3.4/32", "5.6.7.8/32"], LockToken := "t" } (.ok ()) (by decide!)

/-! ## Algebra of the merge -/

/-- Claim C11. The merge is commutative as a set: for all address lists `A` and
`B`, an address is in `[...new Set([...A, ...B])]` exactly when it is in
`[...new Set([...B, ...A])]`, and the two lists are permutations of each other
(their orders may differ). -/
theorem merge_comm (A B : List String) :
    (∀ x : String, x ∈ newSet (A ++ B) ↔ x ∈ newSet (B ++ A)) ∧
      (newSet (A ++ B)).Perm (newSet (B ++ A)) := by
  have hmem : ∀ x : String, x ∈ newSet (A ++ B) ↔ x ∈ newSet (B ++ A) := by
    intro x
    rw [mem_newSet, mem_newSet, List.mem_append, List.mem_append]
    exact Or.comm
  exact ⟨hmem, (List.perm_ext_iff_of_nodup (nodup_newSet _) (nodup_newSet _)).2 hmem⟩

/-- Claim C12. The merge is idempotent and the empty list is its identity, as
sets: an address is in the merge of `A` with `A`, and in the merge of `A` with
the empty list, exactly when it is in `A`; both merges are the list of the
distinct values of `A`; and for a duplicate-free `A` both are `A` itself, in
the same order. -/
theorem merge_idempotent_identity (A : List String) :
    (∀ x : String, x ∈ newSet (A ++ A) ↔ x ∈ A) ∧
      (∀ x : String, x ∈ newSet (A ++ []) ↔ x ∈ A) ∧
      newSet (A ++ A) = newSet A ∧
      newSet (A ++ []) = newSet A ∧
      (A.Nodup → newSet (A ++ A) = A ∧ newSet (A ++ []) = A) := by
  have hself : newSet (A ++ A) = newSet A := by
    rw [newSet_append]
    exact foldl_setAdd_of_mem A (newSet A) (fun x hx => (mem_newSet A x).2 hx)
  have hnil : newSet (A ++ []) = newSet A := by rw [List.append_nil]
  refine ⟨fun x => ?_, fun x => ?_, hself, hnil, fun hnd => ?_⟩
  · rw [hself, mem_newSet]
  · rw [hnil, mem_newSet]
  · rw [hself, hnil, newSet_of_nodup A hnd]
    exact ⟨rfl, rfl⟩

/-- An instance of C12 on a duplicate-free list of two addresses. -/
theorem merge_idempotent_identity_witness :
    newSet (["1.2.3.4/32", "5.6.7.8/32"] ++ ["1.2.3.4/32", "5.6.7.8/32"]) =
        ["1.2.3.4/32", "5.6.7.8/32"] ∧
      newSet (["1.2.3.4/32", "5.6.7.8/32"] ++ []) = ["1.2.3.4/32", "5.6.7.8/32"] :=
  (merge_idempotent_identity ["1.2.3.4/32", "5.6.7.8/32"]).2.2.2.2 (by decide)

/-- Claim C13. The committed address list has no duplicate entry: the merge of
any list read with the candidates of any sample is duplicate-free, whatever
repetitions the two contain; and in every run of the handler the `Addresses` of
an address-set write are duplicate-free. -/
theorem committed_list_nodup :
    (∀ (current : List String) (sample : List SampledRequest),
      (newSet (current ++ ipsToBlockOf sample)).Nodup) ∧
    (∀ {σ : Type} (env : Env σ) (cfg : Config) (s : σ) (sent : UpdateIPSetParams)
      (r : Except JsError Unit),
      Event.updateIPSet sent r ∈ (runHandler env cfg s).2.trace → sent.Addresses.Nodup) := by
  refine ⟨fun current sample => nodup_newSet _, ?_⟩
  intro σ env cfg s sent r
  generalize hout : runHandler env cfg s = out
  simp only [runHandler, handler, handlerBody, getCurrentRateLimit, updateRateLimit,
    getBlockedIPs, getBlockCounts, updateBlockedIPs, publishMetrics, tryCatch_rethrow,
    bind_bind] at hout
  repeat' (first
    | simp only [pure_then, throw_then, run_tryCatch_pure, run_tryCatch_throw,
        run_call_then, run_tryCatch_call_then, run_tryCatch_tryCatch_call_then, run_pure,
        bind_bind] at hout
    | split at hout)
  all_goals
    subst hout
    simp
  all_goals
    intro hsent _
    subst hsent
    exact nodup_newSet _

/-- The example of C13: the address read `1.2.3.4/32` and the sampled blocked
addresses `1.2.3.4` and `5.6.7.8` merge into a duplicate-free list of size 2. -/
theorem committed_list_nodup_witness :
    (newSet (["1.2.3.4/32"] ++
        ipsToBlockOf [⟨"BLOCK", "1.2.3.4"⟩, ⟨"BLOCK", "5.6.7.8"⟩])).Nodup ∧
      newSet (["1.2.3.4/32"] ++ ipsToBlockOf [⟨"BLOCK", "1.2.3.4"⟩, ⟨"BLOCK", "5.6.7.8"⟩]) =
        ["1.2.3.4/32", "5.6.7.8/32"] ∧
      (newSet (["1.2.3.4/32"] ++
        ipsToBlockOf [⟨"BLOCK", "1.2.3.4"⟩, ⟨"BLOCK", "5.6.7.8"⟩])).length = 2 :=
  ⟨committed_list_nodup.1 ["1.2.3.4/32"] [⟨"BLOCK", "1.2.3.4"⟩, ⟨"BLOCK", "5.6.7.8"⟩],
    by decide, by decide⟩

/-- Claim C15. Candidate extraction: the candidate list is built from the
sample in order, a request whose `Action` is `BLOCK` contributes `ClientIP +
"/32"` and a request with any other action contributes nothing; so an address
is a candidate exactly when it is `ClientIP + "/32"` for a sampled request with
action `BLOCK`, and there are as many candidates as such requests. -/
theorem candidate_extraction :
    ipsToBlockOf [] = [] ∧
      (∀ (req : SampledRequest) (rest : List SampledRequest), req.Action = "BLOCK" →
        ipsToBlockOf (req :: rest) = (req.ClientIP ++ "/32") :: ipsToBlockOf rest) ∧
      (∀ (req : SampledRequest) (rest : List SampledRequest), req.Action ≠ "BLOCK" →
        ipsToBlockOf (req :: rest) = ipsToBlockOf rest) ∧
      (∀ (sample : List SampledRequest) (x : String),
        x ∈ ipsToBlockOf sample ↔
          ∃ req ∈ sample, req.Action = "BLOCK" ∧ x = req.ClientIP ++ "/32") ∧
      (∀ sample : List SampledRequest,
        (ipsToBlockOf sample).length = sample.countP (fun req => req.Action == "BLOCK")) := by
  refine ⟨rfl, ?_, ?_, ?_, ?_⟩
  · intro req rest h
    simp [ipsToBlockOf, List.filter_cons, h]
  · intro req rest h
    simp [ipsToBlockOf, List.filter_cons, h]
  · intro sample x
    simp only [ipsToBlockOf, List.mem_map, List.mem_filter, beq_iff_eq]
    constructor
    · rintro ⟨req, ⟨hmem, hact⟩, rfl⟩
      exact ⟨req, hmem, hact, rfl⟩
    · rintro ⟨req, hmem, hact, rfl⟩
      exact ⟨req, ⟨hmem, hact⟩, rfl⟩
  · intro sample
    simp [ipsToBlockOf, List.countP_eq_length_filter]

/-- The example of C15: of the sampled requests `BLOCK 1.2.3.4`, `ALLOW 7.7.7.7`
and `BLOCK 5.6.7.8`, the two blocked ones give the candidates, which merge with
the address read `1.2.3.4/32` into the two addresses of the example. -/
theorem candidate_extraction_witness :
    ipsToBlockOf [⟨"BLOCK", "1.2.3.4"⟩, ⟨"ALLOW", "7.7.7.7"⟩, ⟨"BLOCK", "5.6.7.8"⟩] =
        ["1.2.3.4/32", "5.6.7.8/32"] ∧
      newSet (["1.2.3.4/32"] ++
        ipsToBlockOf [⟨"BLOCK", "1.2.3.4"⟩, ⟨"ALLOW", "7.7.7.7"⟩, ⟨"BLOCK", "5.6.7.8"⟩]) =
        ["1.2.3.4/32", "5.6.7.8/32"] := by
  have h : ipsToBlockOf [⟨"BLOCK", "1.2.3.4"⟩, ⟨"ALLOW", "7.7.7.7"⟩, ⟨"BLOCK", "5.6.7.8"⟩] =
      ["1.2.3.4/32", "5.6.7.8/32"] := by
    rw [candidate_extraction.2.1 _ _ rfl, candidate_extraction.2.2.1 _ _ (by decide),
      candidate_extraction.2.1 _ _ rfl, candidate_extraction.1]
    decide
  exact ⟨h, by rw [h]; decide⟩

/-! ## The gate of the blocklist reconciliation -/

/-- The block-count query and the window query differ (in `Id` and `Period`). -/
theorem blockCountQuery_ne_windowQuery (a b : Option String) :
    ¬ blockCountQuery a = windowQuery b := by
  simp [blockCountQuery, windowQuery]

/-- Claim C14. With the default threshold of 100 the blocklist reconciliation
is gated by `blockCount > 100`, strictly. In every run in which `getBlockCounts`
returned a block count: the sampling request is issued exactly when the count
is above 100; an address-set write is issued only when the count is above 100,
and then it is issued unless the sampling request or the token fetch failed
(which ends the run); for a count of at most 100, 100 included, no sample is
requested and no address-set write is issued. -/
theorem reconciliation_gate {σ : Type} (env : Env σ) (cfg : Config) (s : σ)
    (data : GetMetricDataResponse) (result : MetricDataResult)
    (hdefault : cfg.BLOCK_COUNT_THRESHOLD = ThresholdSetting.unset)
    (hcount : Event.getMetricData (blockCountQuery cfg.WEB_ACL_ID) (.ok data) ∈
      (runHandler env cfg s).2.trace)
    (hresult : data.MetricDataResults.head? = some result) :
    ((runHandler env cfg s).2.trace.any Event.isGetSampledRequests = true ↔
        result.Values.foldl (fun a b => a + b) 0 > 100) ∧
      ((runHandler env cfg s).2.trace.any Event.isUpdateIPSet = true →
        result.Values.foldl (fun a b => a + b) 0 > 100) ∧
      (result.Values.foldl (fun a b => a + b) 0 > 100 →
        (runHandler env cfg s).2.trace.any Event.isUpdateIPSet = true ∨
        (∃ q e, (runHandler env cfg s).2.trace.getLast? =
          some (Event.getSampledRequests q (.error e))) ∨
        (∃ q e, (runHandler env cfg s).2.trace.getLast? =
          some (Event.getIPSet q (.error e)))) ∧
      (result.Values.foldl (fun a b => a + b) 0 ≤ 100 →
        ∀ ev ∈ (runHandler env cfg s).2.trace,
          ev.isGetSampledRequests = false ∧ ev.isUpdateIPSet = false) := by
  revert hcount
  generalize hout : runHandler env cfg s = out
  simp only [runHandler, handler, handlerBody, getCurrentRateLimit, updateRateLimit,
    getBlockedIPs, getBlockCounts, updateBlockedIPs, publishMetrics, tryCatch_rethrow,
    bind_bind, hdefault, exceedsThreshold] at hout
  repeat' (first
    | simp only [pure_then, throw_then, run_tryCatch_pure, run_tryCatch_throw,
        run_call_then, run_tryCatch_call_then, run_tryCatch_tryCatch_call_then, run_pure,
        bind_bind] at hout
    | split at hout)
  all_goals
    subst hout
    simp [blockCountQuery_ne_windowQuery, Event.isGetSampledRequests, Event.isUpdateIPSet]
  all_goals
    intro hdata
    subst hdata
    simp_all

/-- The witness of C14: with exactly 100 blocks in the last hour (`quietCloud`)
no sample is requested and no address-set write is issued; with 150
(`sampleCloud`) the sampling request is issued. -/
theorem reconciliation_gate_witness :
    (∀ ev ∈ (runHandler cloudEnv sampleConfig quietCloud).2.trace,
        ev.isGetSampledRequests = false ∧ ev.isUpdateIPSet = false) ∧
      (runHandler cloudEnv sampleConfig sampleCloud).2.trace.any
        Event.isGetSampledRequests = true :=
  ⟨(reconciliation_gate cloudEnv sampleConfig quietCloud
      { MetricDataResults := [{ Values := [100] }] } { Values := [100] }
      rfl (by decide!) rfl).2.2.2 (by norm_num),
    (reconciliation_gate cloudEnv sampleConfig sampleCloud
      { MetricDataResults := [{ Values := [100, 50] }] } { Values := [100, 50] }
      rfl (by decide!) rfl).1.2 (by norm_num)⟩

/-! ## Absent data -/

/-- Claim C16. Absence of data is zero, not an error. For a result without data
points `blockedRequests` is 0 and, for every `currentLimit > 0`, `blockRate` is
0; `getBlockCounts` returns 0 when its query returns a result without data
points; and a run of the handler whose window query returns such a result goes
on to its next call, and a success response of it reports the block rate 0. -/
theorem absent_data_is_zero :
    blockedRequestsOf [] = 0 ∧
    (∀ currentLimit : ℚ, 0 < currentLimit →
      blockRateOf (blockedRequestsOf []) currentLimit = 0) ∧
    (∀ {σ : Type} (env : Env σ) (webAclId : Option String) (w : World σ)
      (rest : List MetricDataResult) (s1 : σ),
      env.getMetricData (blockCountQuery webAclId) w.state =
        (.ok { MetricDataResults := { Values := [] } :: rest }, s1) →
      (getBlockCounts env webAclId w).1 = .ok 0) ∧
    (∀ {σ : Type} (env : Env σ) (cfg : Config) (s s1 s2 : σ) (response : GetWebACLResponse)
      (rule : Rule) (rbs : RateBasedStatement) (rest : List MetricDataResult),
      env.getWebACL { Id := cfg.WEB_ACL_ID, Name := cfg.WEB_ACL_NAME, Scope := "REGIONAL" } s =
        (.ok response, s1) →
      response.WebACL.Rules.find? (fun r => r.Name == "RateBasedProtection") = some rule →
      rule.Statement.RateBasedStatement = some rbs →
      env.getMetricData (windowQuery cfg.WEB_ACL_NAME) s1 =
        (.ok { MetricDataResults := { Values := [] } :: rest }, s2) →
      3 ≤ (runHandler env cfg s).2.trace.length ∧
      ∀ resp : Response, (runHandler env cfg s).1 = .ok resp → resp.statusCode = 200 →
        ∃ (blockCount : ℚ) (blockedIPs : Nat),
          resp.body = Body.success rbs.Limit (decideLimit rbs.Limit 0) 0
            "WAF monitoring completed successfully" blockCount blockedIPs) := by
  refine ⟨rfl, ?_, ?_, ?_⟩
  · intro currentLimit _
    simp [blockRateOf, blockedRequestsOf]
  · intro σ env webAclId w rest s1 hquery
    simp only [getBlockCounts, tryCatch_rethrow, run_call_then, hquery, List.head?_cons,
      run_pure, List.foldl_nil]
  · intro σ env cfg s s1 s2 response rule rbs rest hget hfind hstmt hquery
    have hzero : blockedRequestsOf [] = 0 := rfl
    have hrate : blockRateOf 0 rbs.Limit = 0 := by simp [blockRateOf]
    simp only [runHandler, handler, handlerBody, getCurrentRateLimit, updateRateLimit,
      getBlockedIPs, getBlockCounts, updateBlockedIPs, publishMetrics, tryCatch_rethrow,
      bind_bind]
    simp only [pure_then, throw_then, run_tryCatch_pure, run_tryCatch_throw,
      run_call_then, run_tryCatch_call_then, run_tryCatch_tryCatch_call_then, run_pure,
      bind_bind, hget, hfind, hstmt, hquery, List.head?_cons, hzero, hrate]
    repeat' (first
      | simp only [pure_then, throw_then, run_tryCatch_pure, run_tryCatch_throw,
          run_call_then, run_tryCatch_call_then, run_tryCatch_tryCatch_call_then, run_pure,
          bind_bind]
      | split)
    all_goals simp

/-- An instance of C16: on `silentCloud`, where both queries return a result
without data points, the handler reports success with block rate 0 and block
count 0 (the limit 5000 is lowered to 4000). -/
theorem absent_data_is_zero_witness :
    (getBlockCounts cloudEnv (some "acl-id") { state := silentCloud, trace := [] }).1 = .ok 0 ∧
      (runHandler cloudEnv sampleConfig silentCloud).1 =
        .ok { statusCode := 200
              body := Body.success 5000 4000 0 "WAF monitoring completed successfully" 0 1 } :=
  ⟨absent_data_is_zero.2.2.1 cloudEnv (some "acl-id") { state := silentCloud, trace := [] }
      [] silentCloud.arrive rfl,
    by decide!⟩

/-! ## Metrics and failures -/

/-- Counterexample to C17 as stated: on `quietCloud` every step succeeds, the
block count is 100, not above the threshold, the run consists of the four reads
and reports success, and no metrics are published at all. -/
theorem metrics_on_skip_counterexample :
    (runHandler cloudEnv sampleConfig quietCloud).1 =
        .ok { statusCode := 200
              body := Body.success 5000 5000 (1 / 2)
                "WAF monitoring completed successfully" 100 1 } ∧
      exceedsThreshold 100 sampleConfig.BLOCK_COUNT_THRESHOLD = false ∧
      (runHandler cloudEnv sampleConfig quietCloud).2.trace.length = 4 ∧
      (runHandler cloudEnv sampleConfig quietCloud).2.trace.any Event.isPutMetricData =
        false := by
  decide!

set_option maxHeartbeats 1000000 in
/-- Claim C17, amended. The blocklist metrics are published on the reconcile
branch only. In every run in which `getBlockCounts` returned a block count (so
every step before it succeeded): when the count is not above the threshold,
no blocklist metrics are published; blocklist metrics are published only when
the count is above the threshold and the address-set write succeeded; and
after a successful address-set write the last call of the run is the publish
of `BlockedIPCount`, the length of the written list, and `BlockedRequestsRate`,
the block count divided by 3600. -/
theorem blocklist_metrics_after_commit {σ : Type} (env : Env σ) (cfg : Config) (s : σ)
    (data : GetMetricDataResponse) (result : MetricDataResult)
    (hcount : Event.getMetricData (blockCountQuery cfg.WEB_ACL_ID) (.ok data) ∈
      (runHandler env cfg s).2.trace)
    (hresult : data.MetricDataResults.head? = some result) :
    (exceedsThreshold (result.Values.foldl (fun a b => a + b) 0)
        cfg.BLOCK_COUNT_THRESHOLD = false →
      ∀ ev ∈ (runHandler env cfg s).2.trace, ev.isBlocklistMetrics = false) ∧
    (∀ ev ∈ (runHandler env cfg s).2.trace, ev.isBlocklistMetrics = true →
      exceedsThreshold (result.Values.foldl (fun a b => a + b) 0)
          cfg.BLOCK_COUNT_THRESHOLD = true ∧
        ∃ sent, Event.updateIPSet sent (.ok ()) ∈ (runHandler env cfg s).2.trace) ∧
    (∀ sent, Event.updateIPSet sent (.ok ()) ∈ (runHandler env cfg s).2.trace →
      ∃ r, (runHandler env cfg s).2.trace.getLast? =
        some (Event.putMetricData
          { MetricData :=
              [{ MetricName := "BlockedIPCount"
                 Value := sent.Addresses.length
                 Unit := "Count"
                 Dimensions := [] },
               { MetricName := "BlockedRequestsRate"
                 Value := result.Values.foldl (fun a b => a + b) 0 / 3600
                 Unit := "Count/Second"
                 Dimensions := [] }]
            Namespace := "MinecraftServer/WAF" } r)) := by
  revert hcount
  generalize hout : runHandler env cfg s = out
  simp only [runHandler, handler, handlerBody, getCurrentRateLimit, updateRateLimit,
    getBlockedIPs, getBlockCounts, updateBlockedIPs, publishMetrics, tryCatch_rethrow,
    bind_bind] at hout
  repeat' (first
    | simp only [pure_then, throw_then, run_tryCatch_pure, run_tryCatch_throw,
        run_call_then, run_tryCatch_call_then, run_tryCatch_tryCatch_call_then, run_pure,
        bind_bind] at hout
    | split at hout)
  all_goals
    subst hout
    simp [blockCountQuery_ne_windowQuery, Event.isBlocklistMetrics]
  all_goals
    intro hdata
    subst hdata
    simp_all

/-- The witness of the amended C17: on `sampleCloud`, with 150 blocks in the
last hour, the last call of the run publishes `BlockedIPCount` 2 and
`BlockedRequestsRate` 150 / 3600. -/
theorem blocklist_metrics_after_commit_witness :
    ∃ r, (runHandler cloudEnv sampleConfig sampleCloud).2.trace.getLast? =
      some (Event.putMetricData
        { MetricData :=
            [{ MetricName := "BlockedIPCount"
               Value := (2 : Nat)
               Unit := "Count"
               Dimensions := [] },
             { MetricName := "BlockedRequestsRate"
               Value := ([100, 50] : List ℚ).foldl (fun a b => a + b) 0 / 3600
               Unit := "Count/Second"
               Dimensions := [] }]
          Namespace := "MinecraftServer/WAF" } r) :=
  (blocklist_metrics_after_commit cloudEnv sampleConfig sampleCloud
    { MetricDataResults := [{ Values := [100, 50] }] } { Values := [100, 50] }
    (by decide!) rfl).2.2
    { Id := some "set-id", Name := some "set", Scope := "REGIONAL",
      Addresses := ["1.2.3.4/32", "5.6.7.8/32"], LockToken := "t" } (by decide!)

set_option maxHeartbeats 1000000 in
/-- Claim C18. Failures become a structured failure and never escape. For every
environment the handler returns a response (it does not throw), of status 200
or 500. If a call other than a metrics publish fails (policy fetch, metrics
query, policy write, address-set fetch, sampling request, address-set write),
the response has status 500 and its body carries the message `Error in WAF
monitoring` and that error's message; a response of status 200 means that no
such call of the run failed; a response of status 500 always has that body
shape. -/
theorem failures_are_structured {σ : Type} (env : Env σ) (cfg : Config) (s : σ) :
    ∃ resp : Response,
      (runHandler env cfg s).1 = .ok resp ∧
      (resp.statusCode = 200 ∨ resp.statusCode = 500) ∧
      (∀ ev ∈ (runHandler env cfg s).2.trace, ev.isPutMetricData = false →
        ∀ e : JsError, ev.error? = some e →
          resp = { statusCode := 500
                   body := Body.failure "Error in WAF monitoring" e.message }) ∧
      (resp.statusCode = 200 →
        ∀ ev ∈ (runHandler env cfg s).2.trace, ev.isPutMetricData = false →
          ev.error? = none) ∧
      (resp.statusCode = 500 →
        ∃ message : String, resp.body = Body.failure "Error in WAF monitoring" message) := by
  generalize hout : runHandler env cfg s = out
  simp only [runHandler, handler, handlerBody, getCurrentRateLimit, updateRateLimit,
    getBlockedIPs, getBlockCounts, updateBlockedIPs, publishMetrics, tryCatch_rethrow,
    bind_bind] at hout
  repeat' (first
    | simp only [pure_then, throw_then, run_tryCatch_pure, run_tryCatch_throw,
        run_call_then, run_tryCatch_call_then, run_tryCatch_tryCatch_call_then, run_pure,
        bind_bind] at hout
    | split at hout)
  all_goals
    subst hout
    refine ⟨_, rfl, ?_⟩
    simp only [List.nil_append, List.append_assoc, List.singleton_append, List.cons_append,
      List.mem_cons, List.mem_singleton, List.not_mem_nil, or_false, forall_eq_or_imp,
      forall_eq, Event.isPutMetricData, Event.error?, errorOf, reduceCtorEq,
      Option.some.injEq, forall_eq', false_implies, implies_true, and_true, true_and,
      or_true, true_or, Bool.true_eq_false, Bool.false_eq_true, forall_const, imp_self,
      Response.mk.injEq, Body.failure.injEq, exists_eq', and_self, exists_const,
      IsEmpty.forall_iff, not_false_eq_true, exists_and_left, exists_eq_left',
      forall_true_left]
  all_goals exact fun h => absurd h (by decide)

/-- An instance of C18: on `sampleCloud` with a failing address-set write (call
number 6) the handler returns status 500 with the error's message. -/
theorem failures_are_structured_witness :
    ∃ resp : Response,
      (runHandler cloudEnv sampleConfig
        { sampleCloud with faults := [(6, "WAFInternalErrorException")] }).1 = .ok resp ∧
      resp = { statusCode := 500
               body := Body.failure "Error in WAF monitoring" "WAFInternalErrorException" } := by
  obtain ⟨resp, hresp, _, hfail, _⟩ := failures_are_structured cloudEnv sampleConfig
    { sampleCloud with faults := [(6, "WAFInternalErrorException")] }
  refine ⟨resp, hresp, ?_⟩
  exact hfail
    (Event.updateIPSet
      { Id := some "set-id", Name := some "set", Scope := "REGIONAL",
        Addresses := ["1.2.3.4/32", "5.6.7.8/32"], LockToken := "t" }
      (.error ⟨"WAFInternalErrorException", some "WAFInternalErrorException"⟩))
    (by decide!) rfl ⟨"WAFInternalErrorException", some "WAFInternalErrorException"⟩ rfl

set_option maxHeartbeats 1000000 in
/-- Claim C19. A failure of the blocklist metrics publish does not change the
outcome: `publishMetrics` always returns normally; and the handler's response
is the same for any two environments that differ only in how the publish of
the blocklist metrics (namespace `MinecraftServer/WAF`) behaves, so a run in
which that publish fails returns what the run in which it succeeds returns. -/
theorem emit_failure_is_harmless {σ : Type} (env : Env σ) (cfg : Config) :
    (∀ (metrics : Metrics) (w : World σ), (publishMetrics env metrics w).1 = .ok ()) ∧
    (∀ (publish : PutMetricDataParams → σ → Except JsError Unit × σ) (s : σ),
      (∀ (p : PutMetricDataParams) (t : σ), p.Namespace ≠ "MinecraftServer/WAF" →
        publish p t = env.putMetricData p t) →
      (runHandler { env with putMetricData := publish } cfg s).1 =
        (runHandler env cfg s).1) := by
  constructor
  · intro metrics w
    simp only [publishMetrics, run_tryCatch_call]
    split <;> rfl
  · intro publish s hsame
    have hdelta : ∀ (data : List MetricDatum) (t : σ),
        publish { Namespace := "MinecraftWAF", MetricData := data } t =
          env.putMetricData { Namespace := "MinecraftWAF", MetricData := data } t :=
      fun data t => hsame _ t (by simp)
    simp only [runHandler, handler, handlerBody, getCurrentRateLimit, updateRateLimit,
      getBlockedIPs, getBlockCounts, updateBlockedIPs, publishMetrics, tryCatch_rethrow,
      bind_bind, hdelta]
    repeat' (first
      | simp only [pure_then, throw_then, run_tryCatch_pure, run_tryCatch_throw,
          run_call_then, run_tryCatch_call_then, run_tryCatch_tryCatch_call_then, run_pure,
          bind_bind, *]
      | split)

/-- An instance of C19: on `sampleCloud` the run in which the publish of the
blocklist metrics (call number 7) fails returns the same response as the run in
which it succeeds, status 200. -/
theorem emit_failure_is_harmless_witness :
    (publishMetrics cloudEnv { blockedIPs := 2, blockRate := 1 / 24 }
        { state := { sampleCloud with faults := [(0, "ThrottlingException")] },
          trace := [] }).1 = .ok () ∧
      (runHandler cloudEnv sampleConfig
        { sampleCloud with faults := [(7, "ThrottlingException")] }).1 =
        (runHandler cloudEnv sampleConfig sampleCloud).1 ∧
      (runHandler cloudEnv sampleConfig
        { sampleCloud with faults := [(7, "ThrottlingException")] }).2.trace.getLast?.bind
        Event.error? = some ⟨"ThrottlingException", some "ThrottlingException"⟩ :=
  ⟨(emit_failure_is_harmless cloudEnv sampleConfig).1 _ _, by decide!, by decide!⟩

/-- Claim C20, the code at a failing input. On `telemetryFaultCloud` the limit
is raised from 5000 to 7500 and the policy write succeeds (the store holds the
new limit), then the publish of the `RateLimitAdjustment` metric fails: the
handler stops there, after five calls and without reading the address set, and
returns status 500 with the telemetry error's message; on `busyCloud`, the same
state with the publish succeeding, it returns status 200. -/
theorem limit_metric_failure_is_fatal :
    (runHandler cloudEnv sampleConfig telemetryFaultCloud).1 =
        .ok { statusCode := 500
              body := Body.failure "Error in WAF monitoring" "ThrottlingException" } ∧
      (runHandler cloudEnv sampleConfig telemetryFaultCloud).2.state.webACL.Rules =
        [geoRule, rateRule 7500] ∧
      (runHandler cloudEnv sampleConfig telemetryFaultCloud).2.trace.length = 5 ∧
      (runHandler cloudEnv sampleConfig telemetryFaultCloud).2.trace.getLast?.map
        Event.isPutMetricData = some true ∧
      (runHandler cloudEnv sampleConfig telemetryFaultCloud).2.trace.getLast?.bind
        Event.error? = some ⟨"ThrottlingException", some "ThrottlingException"⟩ ∧
      (runHandler cloudEnv sampleConfig telemetryFaultCloud).2.trace.any Event.isGetIPSet =
        false ∧
      (runHandler cloudEnv sampleConfig busyCloud).1 =
        .ok { statusCode := 200
              body := Body.success 5000 7500 (9 / 10)
                "WAF monitoring completed successfully" 150 1 } := by
  decide!

/-! ## Configuration, conflicts and retries -/

/-- Counterexample to C21 as stated: with the address set's id missing from the
configuration, on `strictCloud` the handler issues six calls before it fails,
among them a policy write that raises the stored limit to 7500, and the
failure it returns is the generic one with the refusing call's message; and
with every identifier missing, on `sampleCloud` (a service that does not
inspect identifiers) the handler issues all eight calls of a cycle and reports
success. -/
theorem config_check_counterexample :
    noSetIdConfig.IP_SET_ID = none ∧
      (runHandler cloudEnv noSetIdConfig strictCloud).2.trace.length = 6 ∧
      (runHandler cloudEnv noSetIdConfig strictCloud).2.trace.any Event.isUpdateWebACL =
        true ∧
      (runHandler cloudEnv noSetIdConfig strictCloud).2.state.webACL.Rules =
        [geoRule, rateRule 7500] ∧
      (runHandler cloudEnv noSetIdConfig strictCloud).1 =
        .ok { statusCode := 500
              body := Body.failure "Error in WAF monitoring" "MissingRequiredParameter" } ∧
      (runHandler cloudEnv emptyConfig sampleCloud).2.trace.length = 8 ∧
      (runHandler cloudEnv emptyConfig sampleCloud).1 =
        .ok { statusCode := 200
              body := Body.success 5000 5000 (1 / 2)
                "WAF monitoring completed successfully" 150 1 } := by
  decide!

set_option maxHeartbeats 1000000 in
/-- Claim C21, amended. The handler checks no identifier: in every invocation,
whatever the configuration holds or lacks, the first call issued is the policy
fetch carrying the configured policy id and name as they are, and every read of
the address set carries the configured address-set id and name as they are. A
missing identifier therefore reaches the collaborators. -/
theorem identifiers_passed_unchecked {σ : Type} (env : Env σ) (cfg : Config) (s : σ) :
    (∃ r, (runHandler env cfg s).2.trace.head? =
      some (Event.getWebACL
        { Id := cfg.WEB_ACL_ID, Name := cfg.WEB_ACL_NAME, Scope := "REGIONAL" } r)) ∧
    (∀ p r, Event.getIPSet p r ∈ (runHandler env cfg s).2.trace →
      p = { Scope := orDefault cfg.IP_SET_SCOPE "REGIONAL"
            Id := cfg.IP_SET_ID
            Name := cfg.IP_SET_NAME }) := by
  generalize hout : runHandler env cfg s = out
  simp only [runHandler, handler, handlerBody, getCurrentRateLimit, updateRateLimit,
    getBlockedIPs, getBlockCounts, updateBlockedIPs, publishMetrics, tryCatch_rethrow,
    bind_bind] at hout
  repeat' (first
    | simp only [pure_then, throw_then, run_tryCatch_pure, run_tryCatch_throw,
        run_call_then, run_tryCatch_call_then, run_tryCatch_tryCatch_call_then, run_pure,
        bind_bind] at hout
    | split at hout)
  all_goals
    subst hout
    simp
  all_goals
    intro p r h
    rcases h with h | h <;> exact h.1

/-- Counterexample to C22 as stated: on `lateRaceCloud` the address-set write
is rejected for its stale lock token (error code `WAFOptimisticLockException`)
and the handler returns status 500 with the message `Error in WAF monitoring`
and the error's message; when the same write fails with an error of another
code (`WAFInternalErrorException`) and the same message, the handler returns
the very same response; and for a failure with another message the response
differs in that copied message only. -/
theorem conflict_kind_counterexample :
    (runHandler cloudEnv sampleConfig lateRaceCloud).2.trace.getLast?.map
        Event.isUpdateIPSet = some true ∧
      (runHandler cloudEnv sampleConfig lateRaceCloud).2.trace.getLast?.bind Event.error? =
        some ⟨"WAFOptimisticLockException", some "WAFOptimisticLockException"⟩ ∧
      (runHandler cloudEnv sampleConfig lateRaceCloud).1 =
        .ok { statusCode := 500
              body := Body.failure "Error in WAF monitoring" "WAFOptimisticLockException" } ∧
      (runHandler
          (rejectingEnv ⟨"WAFOptimisticLockException", some "WAFInternalErrorException"⟩)
          sampleConfig sampleCloud).2.trace.getLast?.bind Event.error? =
        some ⟨"WAFOptimisticLockException", some "WAFInternalErrorException"⟩ ∧
      (runHandler
          (rejectingEnv ⟨"WAFOptimisticLockException", some "WAFInternalErrorException"⟩)
          sampleConfig sampleCloud).1 =
        (runHandler cloudEnv sampleConfig lateRaceCloud).1 ∧
      (runHandler cloudEnv sampleConfig
          { sampleCloud with faults := [(6, "WAFInternalErrorException")] }).1 =
        .ok { statusCode := 500
              body := Body.failure "Error in WAF monitoring" "WAFInternalErrorException" } := by
  decide!

set_option maxHeartbeats 1000000 in
/-- Claim C22, amended. A rejected store write is reported as any other fatal
error. In every run in which a policy write or an address-set write ended with
an error `e`, of whatever code, the handler returns (it does not throw) the
response of status 500 whose body carries the message `Error in WAF monitoring`
and `e.message`: the response is a function of the error's message alone. -/
theorem rejected_write_reported_by_message {σ : Type} (env : Env σ) (cfg : Config) (s : σ)
    (ev : Event) (hmem : ev ∈ (runHandler env cfg s).2.trace)
    (hwrite : ev.isUpdateWebACL = true ∨ ev.isUpdateIPSet = true)
    (e : JsError) (herr : ev.error? = some e) :
    (runHandler env cfg s).1 =
      .ok { statusCode := 500
            body := Body.failure "Error in WAF monitoring" e.message } := by
  revert ev
  generalize hout : runHandler env cfg s = out
  simp only [runHandler, handler, handlerBody, getCurrentRateLimit, updateRateLimit,
    getBlockedIPs, getBlockCounts, updateBlockedIPs, publishMetrics, tryCatch_rethrow,
    bind_bind] at hout
  repeat' (first
    | simp only [pure_then, throw_then, run_tryCatch_pure, run_tryCatch_throw,
        run_call_then, run_tryCatch_call_then, run_tryCatch_tryCatch_call_then, run_pure,
        bind_bind] at hout
    | split at hout)
  all_goals
    subst hout
    simp [Event.isUpdateWebACL, Event.isUpdateIPSet, Event.error?, errorOf]
  all_goals
    rintro rfl
    rfl

/-- The witness of the amended C22: the address-set write rejected for its
stale token on `lateRaceCloud`. -/
theorem rejected_write_reported_by_message_witness :
    (runHandler cloudEnv sampleConfig lateRaceCloud).1 =
      .ok { statusCode := 500
            body := Body.failure "Error in WAF monitoring" "WAFOptimisticLockException" } :=
  rejected_write_reported_by_message cloudEnv sampleConfig lateRaceCloud
    (Event.updateIPSet
      { Id := some "set-id", Name := some "set", Scope := "REGIONAL",
        Addresses := ["1.2.3.4/32", "5.6.7.8/32"], LockToken := "t" }
      (.error ⟨"WAFOptimisticLockException", some "WAFOptimisticLockException"⟩))
    (by decide!) (Or.inr rfl)
    ⟨"WAFOptimisticLockException", some "WAFOptimisticLockException"⟩ rfl

set_option maxHeartbeats 1000000 in
/-- Claim C23. No write is retried. In every run of the handler, whatever the
collaborators answer, the policy write (`updateWebACL`) is invoked at most once
and the address-set write (`updateIPSet`) at most once, and a store write that
was rejected or failed is the last call of the run: no further write, nor any
other call, follows it. -/
theorem no_retry_of_writes {σ : Type} (env : Env σ) (cfg : Config) (s : σ) :
    (runHandler env cfg s).2.trace.countP Event.isUpdateWebACL ≤ 1 ∧
    (runHandler env cfg s).2.trace.countP Event.isUpdateIPSet ≤ 1 ∧
    failedWriteIsLast (runHandler env cfg s).2.trace = true := by
  generalize hout : runHandler env cfg s = out
  simp only [runHandler, handler, handlerBody, getCurrentRateLimit, updateRateLimit,
    getBlockedIPs, getBlockCounts, updateBlockedIPs, publishMetrics, tryCatch_rethrow,
    bind_bind] at hout
  repeat' (first
    | simp only [pure_then, throw_then, run_tryCatch_pure, run_tryCatch_throw,
        run_call_then, run_tryCatch_call_then, run_tryCatch_tryCatch_call_then, run_pure,
        bind_bind] at hout
    | split at hout)
  all_goals
    subst hout
    simp [failedWriteIsLast, Event.isFailedWrite, errorOf, Event.isUpdateWebACL,
      Event.isUpdateIPSet]

/-! ## Bounds and monotonicity of the decision -/

set_option maxHeartbeats 1000000 in
/-- Claim C28. The decision preserves the bounds, and a policy write goes with
a fired rule. For `MIN_RATE_LIMIT ≤ currentLimit ≤ MAX_RATE_LIMIT` and a block
count that is not negative: the decided limit is within the bounds; it differs
from `currentLimit` exactly when the increase rule or the decrease rule fired;
and in every run of the handler in which the fetched limit and the window's
block count are these, a policy write (`updateWebACL`) is issued only if a rule
fired, and if a rule fired the handler enters `updateRateLimit` and issues the
write as soon as the fetch that precedes it there succeeds. -/
theorem decision_bounds_and_write (currentLimit blockedRequests : ℚ)
    (hlo : MIN_RATE_LIMIT ≤ currentLimit) (hhi : currentLimit ≤ MAX_RATE_LIMIT)
    (_hcount : 0 ≤ blockedRequests) :
    (MIN_RATE_LIMIT ≤ decideLimit currentLimit blockedRequests ∧
      decideLimit currentLimit blockedRequests ≤ MAX_RATE_LIMIT) ∧
    (decideLimit currentLimit blockedRequests ≠ currentLimit ↔
      (blockedRequests / currentLimit > 4 / 5 ∧ currentLimit < MAX_RATE_LIMIT) ∨
      (blockedRequests / currentLimit < 1 / 5 ∧ currentLimit > MIN_RATE_LIMIT)) ∧
    ∀ {σ : Type} (env : Env σ) (cfg : Config) (s s1 s2 : σ) (response : GetWebACLResponse)
      (rule : Rule) (rbs : RateBasedStatement) (metrics : GetMetricDataResponse)
      (result : MetricDataResult),
      env.getWebACL { Id := cfg.WEB_ACL_ID, Name := cfg.WEB_ACL_NAME, Scope := "REGIONAL" } s =
        (.ok response, s1) →
      response.WebACL.Rules.find? (fun r => r.Name == "RateBasedProtection") = some rule →
      rule.Statement.RateBasedStatement = some rbs →
      rbs.Limit = currentLimit →
      env.getMetricData (windowQuery cfg.WEB_ACL_NAME) s1 = (.ok metrics, s2) →
      metrics.MetricDataResults.head? = some result →
      blockedRequestsOf result.Values = blockedRequests →
      (((runHandler env cfg s).2.trace.any Event.isUpdateWebACL = true) →
        (blockedRequests / currentLimit > 4 / 5 ∧ currentLimit < MAX_RATE_LIMIT) ∨
        (blockedRequests / currentLimit < 1 / 5 ∧ currentLimit > MIN_RATE_LIMIT)) ∧
      ((blockedRequests / currentLimit > 4 / 5 ∧ currentLimit < MAX_RATE_LIMIT) ∨
          (blockedRequests / currentLimit < 1 / 5 ∧ currentLimit > MIN_RATE_LIMIT) →
        ∀ (fetched : GetWebACLResponse) (s3 : σ),
          env.getWebACL { Id := cfg.WEB_ACL_ID, Name := cfg.WEB_ACL_NAME, Scope := "REGIONAL" }
            s2 = (.ok fetched, s3) →
          (runHandler env cfg s).2.trace.any Event.isUpdateWebACL = true) := by
  have hiff := decideLimit_ne_iff currentLimit blockedRequests hlo hhi
  refine ⟨?_, hiff, ?_⟩
  · have h1 : (1000 : ℚ) ≤ currentLimit := hlo
    have h2 : currentLimit ≤ (10000 : ℚ) := hhi
    simp only [decideLimit, MIN_RATE_LIMIT, MAX_RATE_LIMIT]
    split_ifs
    · exact ⟨le_min (by linarith) (by norm_num), min_le_right _ _⟩
    · exact ⟨le_max_right _ _, max_le (by linarith) (by norm_num)⟩
    · exact ⟨h1, h2⟩
  · intro σ env cfg s s1 s2 response rule rbs metrics result hget hfind hstmt hlimit hquery
      hhead hblocked
    rw [← hiff]
    by_cases hne : decideLimit currentLimit blockedRequests = currentLimit
    · refine ⟨fun hany => ?_, fun h => absurd hne h⟩
      exfalso
      revert hany
      simp only [runHandler, handler, handlerBody, getCurrentRateLimit, updateRateLimit,
        getBlockedIPs, getBlockCounts, updateBlockedIPs, publishMetrics, tryCatch_rethrow,
        bind_bind]
      simp only [pure_then, throw_then, run_tryCatch_pure, run_tryCatch_throw,
        run_call_then, run_tryCatch_call_then, run_tryCatch_tryCatch_call_then, run_pure,
        bind_bind, hget, hfind, hstmt, hlimit, hquery, hhead, hblocked, hne, ne_eq,
        not_true_eq_false, if_false]
      repeat' (first
        | simp only [pure_then, throw_then, run_tryCatch_pure, run_tryCatch_throw,
            run_call_then, run_tryCatch_call_then, run_tryCatch_tryCatch_call_then, run_pure,
            bind_bind]
        | split)
      all_goals simp [Event.isUpdateWebACL]
    · refine ⟨fun _ => hne, fun _ fetched s3 hfetch => ?_⟩
      simp only [runHandler, handler, handlerBody, getCurrentRateLimit, updateRateLimit,
        getBlockedIPs, getBlockCounts, updateBlockedIPs, publishMetrics, tryCatch_rethrow,
        bind_bind]
      simp only [pure_then, throw_then, run_tryCatch_pure, run_tryCatch_throw,
        run_call_then, run_tryCatch_call_then, run_tryCatch_tryCatch_call_then, run_pure,
        bind_bind, hget, hfind, hstmt, hlimit, hquery, hhead, hblocked, hne, ne_eq,
        not_false_eq_true, if_true, hfetch]
      repeat' (first
        | simp only [pure_then, throw_then, run_tryCatch_pure, run_tryCatch_throw,
            run_call_then, run_tryCatch_call_then, run_tryCatch_tryCatch_call_then, run_pure,
            bind_bind]
        | split)
      all_goals simp [Event.isUpdateWebACL]

/-- The witness of C28: limit 5000 with 4500 blocked requests in the window;
the increase rule fires, the decided limit is 7500 and the run on `busyCloud`
issues the policy write. -/
theorem decision_bounds_and_write_witness :
    decideLimit 5000 4500 = 7500 ∧
      (runHandler cloudEnv sampleConfig busyCloud).2.trace.any Event.isUpdateWebACL = true :=
  ⟨by norm_num [decideLimit, blockRateOf, RATE_INCREASE_THRESHOLD, MAX_RATE_LIMIT],
    ((decision_bounds_and_write 5000 4500 (by norm_num [MIN_RATE_LIMIT])
      (by norm_num [MAX_RATE_LIMIT]) (by norm_num)).2.2 cloudEnv sampleConfig busyCloud
      _ _ _ _ _ _ _ rfl rfl rfl rfl rfl rfl (by decide!)).2
      (Or.inl ⟨by norm_num, by norm_num [MAX_RATE_LIMIT]⟩) _ _ rfl⟩

/-- Claim C29. The decision is monotone in the block count: for a fixed
`currentLimit > 0` and block counts `0 ≤ b1 ≤ b2`, the limit decided for `b1`
is at most the limit decided for `b2`. -/
theorem decideLimit_monotone (currentLimit b1 b2 : ℚ) (hpos : 0 < currentLimit)
    (_h0 : 0 ≤ b1) (h12 : b1 ≤ b2) :
    decideLimit currentLimit b1 ≤ decideLimit currentLimit b2 := by
  have hdiv : b1 / currentLimit ≤ b2 / currentLimit :=
    div_le_div_of_nonneg_right h12 hpos.le
  simp only [decideLimit, blockRateOf, RATE_INCREASE_THRESHOLD, RATE_DECREASE_THRESHOLD,
    MIN_RATE_LIMIT, MAX_RATE_LIMIT]
  by_cases hA1 : b1 / currentLimit > 4 / 5 ∧ currentLimit < 10000
  · rw [if_pos hA1, if_pos ⟨by linarith [hA1.1], hA1.2⟩]
  · rw [if_neg hA1]
    by_cases hB1 : b1 / currentLimit < 1 / 5 ∧ currentLimit > 1000
    · rw [if_pos hB1]
      have hdown : max (currentLimit * (4 / 5)) 1000 ≤ currentLimit :=
        max_le (by linarith) hB1.2.le
      by_cases hA2 : b2 / currentLimit > 4 / 5 ∧ currentLimit < 10000
      · rw [if_pos hA2]
        exact hdown.trans (le_min (by linarith) hA2.2.le)
      · rw [if_neg hA2]
        by_cases hB2 : b2 / currentLimit < 1 / 5 ∧ currentLimit > 1000
        · rw [if_pos hB2]
        · rw [if_neg hB2]
          exact hdown
    · rw [if_neg hB1]
      by_cases hA2 : b2 / currentLimit > 4 / 5 ∧ currentLimit < 10000
      · rw [if_pos hA2]
        exact le_min (by linarith) hA2.2.le
      · rw [if_neg hA2]
        by_cases hB2 : b2 / currentLimit < 1 / 5 ∧ currentLimit > 1000
        · exact absurd ⟨lt_of_le_of_lt hdiv hB2.1, hB2.2⟩ hB1
        · rw [if_neg hB2]

/-- The witness of C29: at limit 5000 the block counts 500, 2500 and 4500 give
4000, 5000 and 7500. -/
theorem decideLimit_monotone_witness :
    decideLimit 5000 500 = 4000 ∧ decideLimit 5000 2500 = 5000 ∧
      decideLimit 5000 4500 = 7500 ∧
      decideLimit 5000 500 ≤ decideLimit 5000 2500 ∧
      decideLimit 5000 2500 ≤ decideLimit 5000 4500 :=
  ⟨by norm_num [decideLimit, blockRateOf, RATE_INCREASE_THRESHOLD, MAX_RATE_LIMIT,
      RATE_DECREASE_THRESHOLD, MIN_RATE_LIMIT],
    by norm_num [decideLimit, blockRateOf, RATE_INCREASE_THRESHOLD, MAX_RATE_LIMIT,
      RATE_DECREASE_THRESHOLD, MIN_RATE_LIMIT],
    by norm_num [decideLimit, blockRateOf, RATE_INCREASE_THRESHOLD, MAX_RATE_LIMIT,
      RATE_DECREASE_THRESHOLD, MIN_RATE_LIMIT],
    decideLimit_monotone 5000 500 2500 (by norm_num) (by norm_num) (by norm_num),
    decideLimit_monotone 5000 2500 4500 (by norm_num) (by norm_num) (by norm_num)⟩

/-! ## The success summary -/

set_option maxHeartbeats 1000000 in
/-- Claim C30. The success summary reports the size of the blocklist before the
merge. For every run that returns status 200: the first call fetched the
policy, the second the window's metrics, the first read of the address set
returned a list `read`, and the block-count query returned `counts`; the
summary holds the fetched limit, the decided limit, `blockedRequests /
previousLimit`, the sum of `counts` as `blockCount`, and the length of `read` as
`blockedIPs`. A publish of the blocklist metrics in the same run carries as
`BlockedIPCount` the length of the merged list (`read` merged with the
candidates of the run's sample); and when `read` has no duplicates, that length
differs from the summary's `blockedIPs` exactly when some candidate is not in
`read`, that is, when the cycle added a new address. -/
theorem summary_reports_premerge_size {σ : Type} (env : Env σ) (cfg : Config) (s : σ)
    (resp : Response) (hresp : (runHandler env cfg s).1 = .ok resp)
    (hok : resp.statusCode = 200) :
    ∃ (fetched : GetWebACLResponse) (rule : Rule) (rbs : RateBasedStatement)
      (metrics : GetMetricDataResponse) (result : MetricDataResult)
      (read : GetIPSetResponse) (data : GetMetricDataResponse) (counts : MetricDataResult),
      (runHandler env cfg s).2.trace[0]? =
        some (Event.getWebACL
          { Id := cfg.WEB_ACL_ID, Name := cfg.WEB_ACL_NAME, Scope := "REGIONAL" }
          (.ok fetched)) ∧
      fetched.WebACL.Rules.find? (fun r => r.Name == "RateBasedProtection") = some rule ∧
      rule.Statement.RateBasedStatement = some rbs ∧
      (runHandler env cfg s).2.trace[1]? =
        some (Event.getMetricData (windowQuery cfg.WEB_ACL_NAME) (.ok metrics)) ∧
      metrics.MetricDataResults.head? = some result ∧
      (runHandler env cfg s).2.trace.find? Event.isGetIPSet =
        some (Event.getIPSet
          { Scope := orDefault cfg.IP_SET_SCOPE "REGIONAL"
            Id := cfg.IP_SET_ID
            Name := cfg.IP_SET_NAME } (.ok read)) ∧
      Event.getMetricData (blockCountQuery cfg.WEB_ACL_ID) (.ok data) ∈
        (runHandler env cfg s).2.trace ∧
      data.MetricDataResults.head? = some counts ∧
      resp.body =
        Body.success rbs.Limit (decideLimit rbs.Limit (blockedRequestsOf result.Values))
          (blockedRequestsOf result.Values / rbs.Limit)
          "WAF monitoring completed successfully"
          (counts.Values.foldl (fun a b => a + b) 0) read.IPSet.Addresses.length ∧
      (∀ ev ∈ (runHandler env cfg s).2.trace, ev.isBlocklistMetrics = true →
        ∃ (query : GetSampledRequestsParams) (sampled : GetSampledRequestsResponse)
          (r : Except JsError Unit),
          (runHandler env cfg s).2.trace.find? Event.isGetSampledRequests =
            some (Event.getSampledRequests query (.ok sampled)) ∧
          ev = Event.putMetricData
            { MetricData :=
                [{ MetricName := "BlockedIPCount"
                   Value := (newSet (read.IPSet.Addresses ++
                     ipsToBlockOf sampled.SampledRequests)).length
                   Unit := "Count"
                   Dimensions := [] },
                 { MetricName := "BlockedRequestsRate"
                   Value := counts.Values.foldl (fun a b => a + b) 0 / 3600
                   Unit := "Count/Second"
                   Dimensions := [] }]
              Namespace := "MinecraftServer/WAF" } r ∧
          (read.IPSet.Addresses.Nodup →
            ((newSet (read.IPSet.Addresses ++
                ipsToBlockOf sampled.SampledRequests)).length ≠
                read.IPSet.Addresses.length ↔
              ∃ a ∈ ipsToBlockOf sampled.SampledRequests, a ∉ read.IPSet.Addresses))) := by
  revert resp
  generalize hout : runHandler env cfg s = out
  simp only [runHandler, handler, handlerBody, getCurrentRateLimit, updateRateLimit,
    getBlockedIPs, getBlockCounts, updateBlockedIPs, publishMetrics, tryCatch_rethrow,
    bind_bind] at hout
  repeat' (first
    | simp only [pure_then, throw_then, run_tryCatch_pure, run_tryCatch_throw,
        run_call_then, run_tryCatch_call_then, run_tryCatch_tryCatch_call_then, run_pure,
        bind_bind] at hout
    | split at hout)
  all_goals
    subst hout
    intro resp hresp hok
    simp only [Except.ok.injEq] at hresp
    subst hresp
    first
      | (simp at hok; done)
      | skip
  all_goals
    simp only [List.nil_append, List.append_assoc, List.singleton_append, List.cons_append]
    refine ⟨_, _, _, _, _, _, _, _, rfl, ‹_›, ‹_›, rfl, ‹_›, rfl, ?_, ‹_›, rfl, ?_⟩
    · simp
    · simp only [List.mem_cons, List.mem_singleton, List.not_mem_nil, or_false,
        forall_eq_or_imp, forall_eq, Event.isBlocklistMetrics]
      repeat' apply And.intro
      all_goals
        intro h
        first
          | (simp at h; done)
          | exact ⟨_, _, _, rfl, rfl, length_newSet_append_ne_iff _ _⟩

/-- The witness of C30: the run on `sampleCloud` returns `sampleSummary`, whose
`blockedIPs` is 1, the length of the list read, while the last call of the run
publishes `BlockedIPCount` 2, the length of the merged list. -/
theorem summary_reports_premerge_size_witness :
    (runHandler cloudEnv sampleConfig sampleCloud).1 = .ok sampleSummary ∧
    (runHandler cloudEnv sampleConfig sampleCloud).2.trace.getLast? =
      some (Event.putMetricData
        { MetricData :=
            [{ MetricName := "BlockedIPCount"
               Value := 2
               Unit := "Count"
               Dimensions := [] },
             { MetricName := "BlockedRequestsRate"
               Value := 150 / 3600
               Unit := "Count/Second"
               Dimensions := [] }]
          Namespace := "MinecraftServer/WAF" } (.ok ())) ∧
    (∃ (fetched : GetWebACLResponse) (rule : Rule) (rbs : RateBasedStatement)
      (metrics : GetMetricDataResponse) (result : MetricDataResult)
      (read : GetIPSetResponse) (data : GetMetricDataResponse) (counts : MetricDataResult),
      (runHandler cloudEnv sampleConfig sampleCloud).2.trace[0]? =
        some (Event.getWebACL
          { Id := sampleConfig.WEB_ACL_ID, Name := sampleConfig.WEB_ACL_NAME, Scope := "REGIONAL" }
          (.ok fetched)) ∧
      fetched.WebACL.Rules.find? (fun r => r.Name == "RateBasedProtection") = some rule ∧
      rule.Statement.RateBasedStatement = some rbs ∧
      (runHandler cloudEnv sampleConfig sampleCloud).2.trace[1]? =
        some (Event.getMetricData (windowQuery sampleConfig.WEB_ACL_NAME) (.ok metrics)) ∧
      metrics.MetricDataResults.head? = some result ∧
      (runHandler cloudEnv sampleConfig sampleCloud).2.trace.find? Event.isGetIPSet =
        some (Event.getIPSet
          { Scope := orDefault sampleConfig.IP_SET_SCOPE "REGIONAL"
            Id := sampleConfig.IP_SET_ID
            Name := sampleConfig.IP_SET_NAME } (.ok read)) ∧
      Event.getMetricData (blockCountQuery sampleConfig.WEB_ACL_ID) (.ok data) ∈
        (runHandler cloudEnv sampleConfig sampleCloud).2.trace ∧
      data.MetricDataResults.head? = some counts ∧
      sampleSummary.body =
        Body.success rbs.Limit (decideLimit rbs.Limit (blockedRequestsOf result.Values))
          (blockedRequestsOf result.Values / rbs.Limit)
          "WAF monitoring completed successfully"
          (counts.Values.foldl (fun a b => a + b) 0) read.IPSet.Addresses.length ∧
      (∀ ev ∈ (runHandler cloudEnv sampleConfig sampleCloud).2.trace, ev.isBlocklistMetrics = true →
        ∃ (query : GetSampledRequestsParams) (sampled : GetSampledRequestsResponse)
          (r : Except JsError Unit),
          (runHandler cloudEnv sampleConfig sampleCloud).2.trace.find? Event.isGetSampledRequests =
            some (Event.getSampledRequests query (.ok sampled)) ∧
          ev = Event.putMetricData
            { MetricData :=
                [{ MetricName := "BlockedIPCount"
                   Value := (newSet (read.IPSet.Addresses ++
                     ipsToBlockOf sampled.SampledRequests)).length
                   Unit := "Count"
                   Dimensions := [] },
                 { MetricName := "BlockedRequestsRate"
                   Value := counts.Values.foldl (fun a b => a + b) 0 / 3600
                   Unit := "Count/Second"
                   Dimensions := [] }]
              Namespace := "MinecraftServer/WAF" } r ∧
          (read.IPSet.Addresses.Nodup →
            ((newSet (read.IPSet.Addresses ++
                ipsToBlockOf sampled.SampledRequests)).length ≠
                read.IPSet.Addresses.length ↔
              ∃ a ∈ ipsToBlockOf sampled.SampledRequests, a ∉ read.IPSet.Addresses)))) :=
  ⟨by decide!, by decide!,
    summary_reports_premerge_size cloudEnv sampleConfig sampleCloud sampleSummary
      (by decide!) rfl⟩

/-! ## Retention batches and rates -/

/-- The loop of `recordRetentionMetrics` from index `i`, started in world `w`:
the calls it adds to the trace are publishes of 1 to 20 items whose items, in
call order, are a prefix of `metrics` from `i` on; and if the loop ends
normally they are all of them, in `⌈(n - i) / 20⌉` calls. -/
theorem publishFrom_spec {σ : Type} (env : Env σ) (metrics : List MetricDatum) :
    ∀ (k i : Nat) (w : World σ), metrics.length - i ≤ k →
      ∃ calls : List Event,
        (publishFrom env metrics i w).2.trace = w.trace ++ calls ∧
        (∀ ev ∈ calls, ∃ items r,
          ev = Event.putMetricData
            { Namespace := "MinecraftServer/Retention", MetricData := items } r ∧
          1 ≤ items.length ∧ items.length ≤ 20) ∧
        (calls.map Event.metricData).flatten <+: metrics.drop i ∧
        ((publishFrom env metrics i w).1 = .ok () →
          calls.length = (metrics.length - i + 19) / 20 ∧
          (calls.map Event.metricData).flatten = metrics.drop i) := by
  intro k
  induction k with
  | zero =>
    intro i w hk
    have hi : ¬ i < metrics.length := by omega
    rw [publishFrom, if_neg hi]
    have hdrop : metrics.drop i = [] := List.drop_eq_nil_of_le (by omega)
    refine ⟨[], by simp [run_pure], by simp, by simp, fun _ => ⟨?_, by simp [hdrop]⟩⟩
    simp only [List.length_nil]
    omega
  | succ k ih =>
    intro i w hk
    by_cases hi : i < metrics.length
    · rw [publishFrom, if_pos hi, run_call_then]
      have hsplit : metrics.drop i = (metrics.drop i).take 20 ++ metrics.drop (i + 20) := by
        rw [← List.drop_drop, List.take_append_drop]
      have hlen1 : 1 ≤ ((metrics.drop i).take 20).length := by
        simp only [List.length_take, List.length_drop]
        omega
      have hlen2 : ((metrics.drop i).take 20).length ≤ 20 := by
        simp only [List.length_take, List.length_drop]
        omega
      split
      · rename_i a s1 heq
        obtain ⟨calls, htrace, hshape, hprefix, hdone⟩ :=
          ih (i + 20) { state := s1, trace := w.trace ++
            [Event.putMetricData
              { Namespace := "MinecraftServer/Retention"
                MetricData := (metrics.drop i).take 20 } (.ok a)] } (by omega)
        refine ⟨Event.putMetricData
            { Namespace := "MinecraftServer/Retention"
              MetricData := (metrics.drop i).take 20 } (.ok a) :: calls, ?_, ?_, ?_, ?_⟩
        · rw [htrace]
          simp
        · intro ev hev
          rcases List.mem_cons.mp hev with h | h
          · exact ⟨_, _, h, hlen1, hlen2⟩
          · exact hshape ev h
        · simp only [List.map_cons, List.flatten_cons, Event.metricData]
          have h := (List.prefix_append_right_inj ((metrics.drop i).take 20)).mpr hprefix
          rw [← hsplit] at h
          exact h
        · intro hok
          obtain ⟨hcount, hall⟩ := hdone hok
          refine ⟨?_, ?_⟩
          · simp only [List.length_cons, hcount]
            omega
          · simp only [List.map_cons, List.flatten_cons, Event.metricData, hall]
            exact hsplit.symm
      · rename_i e s1 heq
        refine ⟨[Event.putMetricData
            { Namespace := "MinecraftServer/Retention"
              MetricData := (metrics.drop i).take 20 } (.error e)], rfl, ?_, ?_, ?_⟩
        · intro ev hev
          exact ⟨_, _, List.mem_singleton.mp hev, hlen1, hlen2⟩
        · simp only [List.map_cons, List.map_nil, List.flatten_cons, List.flatten_nil,
            List.append_nil, Event.metricData]
          exact List.take_prefix _ _
        · intro hok
          exact absurd hok (by simp)
    · rw [publishFrom, if_neg hi]
      have hdrop : metrics.drop i = [] := List.drop_eq_nil_of_le (by omega)
      refine ⟨[], by simp [run_pure], by simp, by simp, fun _ => ⟨?_, by simp [hdrop]⟩⟩
      simp only [List.length_nil]
      omega

/-- Claim C24. The retention metrics are published in batches of at most 20.
For every list of cohorts, with `metrics` the list of their metrics and `n` its
length, the calls `recordRetentionMetrics` issues are publishes to
`MinecraftServer/Retention` of 1 to 20 items each, whose items in call order
are a prefix of `metrics` (a failing publish ends the loop); and when the
function returns normally, that is, when no publish failed, the calls are
exactly `⌈n / 20⌉` (none for `n = 0`) and their items in call order are
`metrics`. -/
theorem retention_batches {σ : Type} (env : Env σ) (cohorts : List PlayerCohort)
    (w : World σ) :
    ∃ calls : List Event,
      (recordRetentionMetrics env cohorts w).2.trace = w.trace ++ calls ∧
      (∀ ev ∈ calls, ∃ items r,
        ev = Event.putMetricData
          { Namespace := "MinecraftServer/Retention", MetricData := items } r ∧
        1 ≤ items.length ∧ items.length ≤ 20) ∧
      (calls.map Event.metricData).flatten <+: retentionMetricsOf cohorts ∧
      ((recordRetentionMetrics env cohorts w).1 = .ok () →
        calls.length = ((retentionMetricsOf cohorts).length + 19) / 20 ∧
        (calls.map Event.metricData).flatten = retentionMetricsOf cohorts) := by
  have h := publishFrom_spec env (retentionMetricsOf cohorts) _ 0 w (le_refl _)
  simpa [recordRetentionMetrics] using h

/-- The witness of C24: the 24 metrics of `sixCohorts` are published in two
calls, of 20 and 4 items, which together carry the metrics in order. -/
theorem retention_batches_witness :
    ∃ calls : List Event,
      (recordRetentionMetrics cloudEnv sixCohorts
        { state := sampleCloud, trace := [] }).2.trace = calls ∧
      calls.length = 2 ∧
      calls.map (fun ev => ev.metricData.length) = [20, 4] ∧
      (calls.map Event.metricData).flatten = retentionMetricsOf sixCohorts := by
  obtain ⟨calls, htrace, _, _, hdone⟩ :=
    retention_batches cloudEnv sixCohorts { state := sampleCloud, trace := [] }
  obtain ⟨hcount, hall⟩ := hdone (by decide!)
  rw [List.nil_append] at htrace
  refine ⟨calls, htrace, ?_, ?_, hall⟩
  · rw [hcount]
    decide!
  · rw [← htrace]
    decide!

/-- Claim C26, the code at a failing input. On the sessions of the repository's
test `calculates retention rates accurately` (two players first seen three
weeks before `now`, one of them active one week later) `analyzeCohorts` returns
the cohort of week 3 with `week1` retention 0, where the claim and the test
expect 50 (`claimedRetention` gives 50): line 53 computes the week of a session
from its absolute timestamp less `cohort.week` weeks, which for these sessions
is 2804, 2804, 2805 and 2806, never 1 to 4. -/
theorem retention_counts_epoch_weeks :
    (analyzeCohorts cloudEnv 1700000000000 (testSessions 1700000000000)
        { state := sampleCloud, trace := [] }).1 =
      .ok [{ week := 3
             players := ["player1", "player2"]
             retention := [("week1", 0), ("week2", 0), ("week3", 0), ("week4", 0)] }] ∧
    claimedRetention 1700000000000
        { week := 3, players := ["player1", "player2"], retention := [] }
        (testSessions 1700000000000) 1 = 50 ∧
    (testSessions 1700000000000).map
        (fun s => (s.timestamp - 3 * 7 * 24 * 60 * 60 * 1000).fdiv (7 * 24 * 60 * 60 * 1000)) =
      [2804, 2804, 2805, 2806] := by
  decide!

/-! ## Peak hours -/

/-- The smoothing loop after the rounds `1, ..., k`: the entries up to `k` are
smoothed, the others are raw. -/
theorem smoothing_rounds (x : List ℚ) (k : Nat) (hk : k ≤ 23) :
    (List.range' 1 k).foldl (smoothStep x) ((List.range 24).map (fun hour => x.getD hour 0)) =
      (List.range 24).map (fun j => if j ≤ k then claimedSeries x j else x.getD j 0) := by
  induction k with
  | zero =>
    simp only [List.range'_zero, List.foldl_nil]
    apply List.map_congr_left
    intro j _
    by_cases hj : j ≤ 0
    · have : j = 0 := by omega
      subst this
      simp [claimedSeries]
    · simp [hj]
  | succ k ih =>
    rw [List.range'_1_concat, List.foldl_append, ih (by omega)]
    simp only [List.foldl_cons, List.foldl_nil, smoothStep, assign, List.length_map,
      List.length_range]
    rw [if_pos (by omega)]
    apply List.ext_getElem
    · simp
    · intro n h1 h2
      simp only [List.length_map, List.length_range] at h2
      simp only [List.getElem_set, List.getElem_map, List.getElem_range,
        Nat.add_sub_cancel_left]
      have hget : ((List.range 24).map
          (fun j => if j ≤ k then claimedSeries x j else x.getD j 0)).getD k 0 =
          claimedSeries x k := by
        rw [List.getD_eq_getElem _ _ (by simp; omega)]
        simp
      by_cases hn : 1 + k = n
      · subst hn
        rw [if_pos rfl, if_pos (by omega), hget]
        have : 1 + k = k + 1 := by omega
        rw [this]
        simp only [claimedSeries]
        norm_num
      · rw [if_neg hn]
        by_cases hnk : n ≤ k
        · rw [if_pos hnk, if_pos (by omega)]
        · rw [if_neg hnk, if_neg (by omega)]

/-- For 24 entries the array `smoothedData` holds the series of the claim. -/
theorem smoothedDataOf_eq (x : List ℚ) (h : x.length = 24) :
    smoothedDataOf x = (List.range 24).map (claimedSeries x) := by
  rw [smoothedDataOf, h, smoothing_rounds x 23 (le_refl _)]
  apply List.map_congr_left
  intro j hj
  rw [if_pos (by simpa using Nat.le_of_lt_succ (List.mem_range.mp hj))]

/-- The fold of `max` from `a` over `xs` is an element of `a :: xs` and bounds
them all. -/
theorem foldl_max_spec (xs : List ℚ) :
    ∀ a : ℚ, xs.foldl max a ∈ a :: xs ∧ ∀ y ∈ a :: xs, y ≤ xs.foldl max a := by
  induction xs with
  | nil => intro a; simp
  | cons b xs ih =>
    intro a
    obtain ⟨hmem, hle⟩ := ih (max a b)
    rw [List.foldl_cons]
    constructor
    · rcases List.mem_cons.mp hmem with h | h
      · rw [h]
        rcases max_choice a b with h2 | h2 <;> rw [h2] <;> simp
      · exact List.mem_cons_of_mem _ (List.mem_cons_of_mem _ h)
    · intro y hy
      have hab := hle (max a b) (List.mem_cons_self _ _)
      rcases List.mem_cons.mp hy with h | h
      · rw [h]
        exact (le_max_left a b).trans hab
      · rcases List.mem_cons.mp h with h | h
        · rw [h]
          exact (le_max_right a b).trans hab
        · exact hle y (List.mem_cons_of_mem _ h)

/-- The value `maxOf xs` is the largest element of a list that is not empty. -/
theorem maxOf_spec (xs : List ℚ) (h : xs ≠ []) :
    maxOf xs ∈ xs ∧ ∀ y ∈ xs, y ≤ maxOf xs := by
  cases xs with
  | nil => exact absurd rfl h
  | cons a xs => exact foldl_max_spec xs a

set_option maxHeartbeats 1000000 in
/-- Claim C25. The peak hours are the hours above half of the smoothed peak.
For every `playerData` of 24 entries, with `s = claimedSeries playerData`
(`s 0 = x[0]`, `s i = 0.3 * x[i] + 0.7 * s (i - 1)`) and `peak` the largest of
`s 0, ..., s 23`, the result of `predictPeakHours` is strictly increasing and
holds exactly the hours `h < 24` with `s h > 0.5 * peak`. -/
theorem peak_hours_above_half_of_peak (x : List ℚ) (hx : x.length = 24) :
    ∃ peak : ℚ,
      (∀ h < 24, claimedSeries x h ≤ peak) ∧
      (∃ h < 24, claimedSeries x h = peak) ∧
      (predictPeakHours x).Sorted (· < ·) ∧
      ∀ h, h ∈ predictPeakHours x ↔ h < 24 ∧ claimedSeries x h > 1 / 2 * peak := by
  have hs := smoothedDataOf_eq x hx
  have hne : smoothedDataOf x ≠ [] := by
    rw [hs]
    simp
  obtain ⟨hmem, hle⟩ := maxOf_spec _ hne
  refine ⟨maxOf (smoothedDataOf x), ?_, ?_, ?_, ?_⟩
  · intro h hh
    apply hle
    rw [hs]
    exact List.mem_map.mpr ⟨h, List.mem_range.mpr hh, rfl⟩
  · rw [hs] at hmem
    obtain ⟨h, hh, heq⟩ := List.mem_map.mp hmem
    rw [← hs] at heq
    exact ⟨h, List.mem_range.mp hh, heq⟩
  · have hsub : (predictPeakHours x).Sublist (List.range (smoothedDataOf x).length) := by
      rw [← List.enum_map_fst]
      exact (List.filter_sublist _).map _
    exact (List.sorted_lt_range _).sublist hsub
  · intro h
    simp only [predictPeakHours, List.mem_map, List.mem_filter, decide_eq_true_eq,
      Prod.exists, exists_and_right, exists_eq_right]
    constructor
    · rintro ⟨v, hv, hgt⟩
      rw [List.mk_mem_enum_iff_getElem?, hs] at hv
      simp only [List.getElem?_map, Option.map_eq_some'] at hv
      obtain ⟨j, hj, hjv⟩ := hv
      have hlt : h < 24 := by
        by_contra hge
        rw [List.getElem?_eq_none (by simpa using Nat.le_of_not_lt hge)] at hj
        exact absurd hj (by simp)
      have hjh : j = h := by
        rw [List.getElem?_range hlt] at hj
        exact (Option.some.inj hj).symm
      subst hjh
      exact ⟨hlt, by rw [hjv]; exact hgt⟩
    · rintro ⟨hlt, hgt⟩
      refine ⟨claimedSeries x h, ?_, hgt⟩
      rw [List.mk_mem_enum_iff_getElem?, hs, List.getElem?_map, List.getElem?_range hlt]
      rfl

/-- The witness of C25: for the test's 24-hour series the result is the hours
12 to 21, which contain 14 and 15; and the series 1, 2, 3, ... smooths to
1, 1.3, 1.81, by the claim's recurrence and in the code's array. -/
theorem peak_hours_above_half_of_peak_witness :
    predictPeakHours mockPlayerData = [12, 13, 14, 15, 16, 17, 18, 19, 20, 21] ∧
      14 ∈ predictPeakHours mockPlayerData ∧ 15 ∈ predictPeakHours mockPlayerData ∧
      (List.range 3).map (claimedSeries [1, 2, 3, 4, 5]) = [1, 13 / 10, 181 / 100] ∧
      (smoothedDataOf [1, 2, 3, 4, 5]).take 3 = [1, 13 / 10, 181 / 100] ∧
      ∃ peak : ℚ,
        (∀ h < 24, claimedSeries mockPlayerData h ≤ peak) ∧
        (∃ h < 24, claimedSeries mockPlayerData h = peak) ∧
        (predictPeakHours mockPlayerData).Sorted (· < ·) ∧
        ∀ h, h ∈ predictPeakHours mockPlayerData ↔
          h < 24 ∧ claimedSeries mockPlayerData h > 1 / 2 * peak :=
  ⟨by decide!, by decide!, by decide!, by decide!, by decide!,
    peak_hours_above_half_of_peak mockPlayerData rfl⟩

/-! ## The player count of the Bedrock server -/

/-- Every match is one of the two alternatives. -/
theorem playerEvents_mem (cs : List Char) :
    ∀ (skip : Nat) (m : String), m ∈ playerEvents cs skip →
      m = "Player connected" ∨ m = "Player disconnected" := by
  induction cs with
  | nil => intro skip m h; cases skip <;> simp [playerEvents] at h
  | cons c cs ih =>
    intro skip m h
    cases skip with
    | succ k => exact ih k m (by simpa [playerEvents] using h)
    | zero =>
      simp only [playerEvents] at h
      split at h
      · rcases List.mem_cons.mp h with h | h
        · exact Or.inl h
        · exact ih _ m h
      · split at h
        · rcases List.mem_cons.mp h with h | h
          · exact Or.inr h
          · exact ih _ m h
        · exact ih _ m h

/-- Counting one for every match gives the number of matches. -/
theorem foldl_count_events (events : List String)
    (h : ∀ m ∈ events, m = "Player connected" ∨ m = "Player disconnected") :
    ∀ start : Int,
      events.foldl
        (fun count m => count + (if includes m.toList "connected".toList then 1 else -1))
        start = start + events.length := by
  induction events with
  | nil => intro start; simp
  | cons m rest ih =>
    intro start
    have hm : includes m.toList "connected".toList = true := by
      rcases h m (List.mem_cons_self _ _) with h | h <;> subst h <;> decide
    rw [List.foldl_cons, hm, ih (fun x hx => h x (List.mem_cons_of_mem _ hx))]
    simp only [if_true, List.length_cons]
    push_cast
    ring

/-- Claim C27, the code at a failing input. A log with one connect followed by
one disconnect gives 2, where the claim gives 0 (`claimedPlayerCount`): the text
`Player disconnected` includes `connected`, so the test of line 22 holds for
both kinds of event and a disconnect is counted as a connect. For every log the
result is the number of all events found in its last 100 lines. -/
theorem bedrock_count_adds_disconnects :
    getBedrockPlayerCount (.ok "Player connected: Steve\nPlayer disconnected: Steve") = 2 ∧
      claimedPlayerCount "Player connected: Steve\nPlayer disconnected: Steve" = 0 ∧
      includes "Player disconnected".toList "connected".toList = true ∧
      ∀ log : String,
        getBedrockPlayerCount (.ok log) = (playerEvents (lastLogsOf log) 0).length := by
  refine ⟨by decide, by decide, by decide, fun log => ?_⟩
  simp only [getBedrockPlayerCount]
  rw [foldl_count_events _ (fun m hm => playerEvents_mem _ _ m hm)]
  simp

end WafMonitor
